import Mathlib

/-!
Verification development for the ric-aiagent backend.

The development shallowly embeds the two core subsystems of the repository:

* the chat-turn orchestration of `app/routers/chat_router.py` (session /
  thread resolution, message persistence, the SSE `event_generator` with its
  in-band `__CHOICES__` / `__ACTS_DATA__` / `__DAILY_UPDATES__` /
  `__SWITCH_PROVIDER__` marker extraction), together with
  `app/services/chat_factory.py` and `app/services/redis_service.py`;
* the Excel import pipeline of `app/services/excel_import_service.py`,
  `app/services/import_scheduler.py` and `app/repository/acts_repo.py`.

External collaborators (pandas file reading, the JSON decoder, the SQL
engine, the Redis client) are modelled as oracles passed in as parameters;
everything the repository itself computes is translated function by
function from the Python source.
-/

namespace RicAgent

/-! ## Python string primitives

Executable models of the Python string operations the routers use:
`str.lower`, `str.isdigit`, `int(...)` on digit strings, `str.strip`,
`email.split("@")[0]`, `str.index` / the `in` operator, and slicing
`s[a:b]` for non-negative indices. -/

/-- ASCII lower-casing of one character, as `str.lower` does on the
ASCII provider names and sentinels used by the code. -/
def lowerChar (c : Char) : Char :=
  if 'A' ≤ c && c ≤ 'Z' then Char.ofNat (c.toNat + 32) else c

/-- Model of Python `s.lower()` (ASCII range). -/
def pyLower (s : String) : String := ⟨s.data.map lowerChar⟩

/-- Model of Python `s.isdigit()`: nonempty and all decimal digits. -/
def pyIsDigit (s : String) : Bool :=
  !s.data.isEmpty && s.data.all (fun c => '0' ≤ c && c ≤ '9')

/-- Decimal value of a digit string, as Python `int(s)` on an
`isdigit` string. -/
def pyInt (s : String) : Nat :=
  s.data.foldl (fun n c => n * 10 + (c.toNat - '0'.toNat)) 0

/-- Whitespace characters stripped by Python `str.strip()`. -/
def isSpaceChar (c : Char) : Bool :=
  c = ' ' || c = '\t' || c = '\n' || c = '\r'

/-- Model of Python `s.strip()`. -/
def pyStrip (s : String) : String :=
  ⟨((s.data.dropWhile isSpaceChar).reverse.dropWhile isSpaceChar).reverse⟩

/-- Model of `email.split("@")[0]` (chat_router.py line 87): the part of
the identity string before the first `@`, the whole string when there is
no `@`. -/
def localPart (email : String) : String :=
  ⟨email.data.takeWhile (fun c => c ≠ '@')⟩

/-- Index of the first occurrence of `pat` in a character list: Python
`s.index(pat)` (`none` when Python would raise, which the router rules
out with a preceding `pat in s` test). -/
def strFind (pat : List Char) : List Char → Option Nat
  | [] => if pat.isEmpty then some 0 else none
  | c :: rest =>
    if pat.isPrefixOf (c :: rest) then some 0
    else (strFind pat rest).map (· + 1)

/-- Python `s in chunk`. -/
def strContains (s pat : List Char) : Bool := (strFind pat s).isSome

/-- Python slice `s[a:b]` for non-negative `a`, `b` (an empty list when
`b ≤ a`, exactly as in Python). -/
def pySlice (s : List Char) (a b : Nat) : List Char := (s.drop a).take (b - a)

/-! ## The SSE marker protocol of `event_generator`
(chat_router.py lines 161-258)

The JSON decoder `json.loads` is an external collaborator: it is passed in
as an oracle `parse : List Char → Option J` (`none` models a raised
`JSONDecodeError`), and Python truthiness of a decoded value (`if
choices_data:`) as an oracle `truthy : J → Bool`. -/

def mCHOICES : List Char := "__CHOICES__".data
def mEND_CHOICES : List Char := "__END_CHOICES__".data
def mACTS : List Char := "__ACTS_DATA__".data
def mEND_ACTS : List Char := "__END_ACTS__".data
def mDAILY : List Char := "__DAILY_UPDATES__".data
def mEND_DAILY : List Char := "__END_DAILY__".data
def mSWITCH : List Char := "__SWITCH_PROVIDER__".data
def mEND_SWITCH : List Char := "__END_SWITCH__".data
def mNEXT_MESSAGE : List Char := "__NEXT_MESSAGE__".data

/-- One marker-extraction block of `event_generator` (the shape shared by
the `__CHOICES__`, `__ACTS_DATA__` and `__DAILY_UPDATES__` blocks, e.g.
lines 170-181): when both sentinels occur, slice the payload between
them and try to decode it; on success store the decoded value and
truncate the chunk at the begin-sentinel index; on a decode failure the
exception is swallowed and — because the truncation statement sits after
`json.loads` inside the `try` — the chunk is left untouched and the
accumulator `cur` keeps its previous value. -/
def extractMarker {J : Type} (parse : List Char → Option J)
    (mb me : List Char) (chunk : List Char) (cur : Option J) :
    List Char × Option J :=
  match strFind mb chunk, strFind me chunk with
  | some b, some e =>
    match parse (pySlice chunk (b + mb.length) e) with
    | some v => (chunk.take b, some v)
    | none => (chunk, cur)
  | some _, none => (chunk, cur)
  | none, _ => (chunk, cur)

/-- The `__SWITCH_PROVIDER__` block (lines 216-218): no payload is
decoded, the chunk is truncated unconditionally when both sentinels
occur. -/
def stripSwitch (chunk : List Char) : List Char :=
  match strFind mSWITCH chunk, strFind mEND_SWITCH chunk with
  | some b, some _ => chunk.take b
  | some _, none => chunk
  | none, _ => chunk

/-- The closure state of `event_generator` that survives from one chunk
to the next: `full_content`, `choices_data`, `acts_data` (lines 162-164).
`daily_updates_data` is not here because the generator re-initializes it
to `None` for every chunk (line 200). -/
structure GenState (J : Type) where
  full_content : List Char
  choices_data : Option J
  acts_data : Option J
  deriving DecidableEq

/-- One SSE event as assembled in lines 222-233: the visible `response`
text plus the side payloads that were attached because their current
value is truthy. -/
structure SSEEvent (J : Type) where
  response : List Char
  choices : Option J
  acts : Option J
  dailyUpdates : Option J
  deriving DecidableEq

/-- Python truthiness of an optional decoded value (`if choices_data:`
with `choices_data` initialized to `None`). -/
def optTruthy {J : Type} (truthy : J → Bool) : Option J → Bool
  | none => false
  | some v => truthy v

/-- The body of the `async for chunk in strategy.stream_message(...)`
loop (lines 168-233): the four marker blocks in source order, the
accumulation of the stripped chunk into `full_content`, and the
assembled SSE event. -/
def processChunk {J : Type} (parse : List Char → Option J) (truthy : J → Bool)
    (st : GenState J) (chunk0 : List Char) : GenState J × SSEEvent J :=
  let r1 := extractMarker parse mCHOICES mEND_CHOICES chunk0 st.choices_data
  let r2 := extractMarker parse mACTS mEND_ACTS r1.1 st.acts_data
  let r3 := extractMarker parse mDAILY mEND_DAILY r2.1 none
  let c4 := stripSwitch r3.1
  (⟨st.full_content ++ c4, r1.2, r2.2⟩,
   ⟨c4,
    if optTruthy truthy r1.2 then r1.2 else none,
    if optTruthy truthy r2.2 then r2.2 else none,
    if optTruthy truthy r3.2 then r3.2 else none⟩)

/-- The whole streaming loop over the list of chunks the provider
adapter yields, threading the closure state. -/
def runChunks {J : Type} (parse : List Char → Option J) (truthy : J → Bool)
    (st : GenState J) : List (List Char) → List (SSEEvent J) × GenState J
  | [] => ([], st)
  | c :: cs =>
    let r := processChunk parse truthy st c
    let rest := runChunks parse truthy r.1 cs
    (r.2 :: rest.1, rest.2)

/-- `event_generator` for one turn: the loop started from the initial
closure state (`full_content = ""`, both accumulators `None`). -/
def eventGenerator {J : Type} (parse : List Char → Option J) (truthy : J → Bool)
    (chunks : List (List Char)) : List (SSEEvent J) × GenState J :=
  runChunks parse truthy ⟨[], none, none⟩ chunks

/-- The decode outcome the `__CHOICES__` block of a single chunk would
produce, independent of any accumulator: `some v` exactly when both
sentinels occur and the sliced payload decodes. -/
def markerUpdate {J : Type} (parse : List Char → Option J)
    (mb me : List Char) (chunk : List Char) : Option J :=
  match strFind mb chunk, strFind me chunk with
  | some b, some e => parse (pySlice chunk (b + mb.length) e)
  | some _, none => none
  | none, _ => none

/-- The visible text left of a chunk after the `__CHOICES__` and
`__ACTS_DATA__` blocks have run, which is what the `__DAILY_UPDATES__`
block sees; it depends only on the chunk and the decoder, not on the
accumulators. -/
def chunkAfterChoicesActs {J : Type} (parse : List Char → Option J)
    (chunk : List Char) : List Char :=
  (extractMarker parse mACTS mEND_ACTS
    (extractMarker parse mCHOICES mEND_CHOICES chunk (none : Option J)).1
    (none : Option J)).1

/-- The daily-updates payload a given chunk produces (line 200 binds it
afresh per chunk, so it is a pure function of the chunk). -/
def dailyPayload {J : Type} (parse : List Char → Option J)
    (chunk : List Char) : Option J :=
  markerUpdate parse mDAILY mEND_DAILY (chunkAfterChoicesActs parse chunk)

/-! ## Relational model for the chat hierarchy
(`app/models/chat_models.py`, `app/models/user_model.py`)

Surrogate integer primary keys are modelled by an explicit allocator
`nextId`; the well-formedness predicate `DB.WF` states what the
database guarantees by construction (every stored id was allocated, and
primary keys are unique). -/

structure UserRec where
  id : Nat
  email : String
  name : String
  deriving DecidableEq

structure SessionRec where
  id : Nat
  user_id : Nat
  title : String
  deriving DecidableEq

structure ThreadRec where
  id : Nat
  session_id : Nat
  title : String
  deriving DecidableEq

structure MsgRec where
  thread_id : Nat
  role : String
  content : String
  deriving DecidableEq

structure DB where
  users : List UserRec
  sessions : List SessionRec
  threads : List ThreadRec
  messages : List MsgRec
  nextId : Nat
  deriving DecidableEq

/-- Invariants the relational store provides: all stored ids are below
the allocator, messages reference allocated thread ids, and primary
keys are unique. -/
structure DB.WF (db : DB) : Prop where
  users_lt : ∀ u ∈ db.users, u.id < db.nextId
  sessions_lt : ∀ s ∈ db.sessions, s.id < db.nextId
  threads_lt : ∀ t ∈ db.threads, t.id < db.nextId
  msgs_lt : ∀ m ∈ db.messages, m.thread_id < db.nextId
  sessions_uniq : db.sessions.Pairwise (fun a b => a.id ≠ b.id)
  threads_uniq : db.threads.Pairwise (fun a b => a.id ≠ b.id)

/-- Messages of one thread, in insertion order (`thread.messages`). -/
def messagesOfThread (db : DB) (tid : Nat) : List MsgRec :=
  db.messages.filter (fun m => m.thread_id == tid)

/-! ## The chat request and the endpoint steps
(`app/schema/chat_schema.py`, chat_router.py lines 82-146) -/

structure ChatRequest where
  session_id : Option String
  thread_id : Option String
  email : String
  message : String
  provider : String
  is_new_chat : Bool

/-- The guard the router applies to an optional session/thread handle:
given, lower-cased not the sentinel `"new"`, and all digits — in which
case its decimal value is used for the lookup (lines 95-97, 110-112).
`none` means the handle cannot be used and a fresh record is created. -/
def parseHandle (h : Option String) : Option Nat :=
  match h with
  | none => none
  | some s =>
    if pyLower s ≠ "new" && pyIsDigit s then some (pyInt s) else none

/-- Step 1, "Upsert User" (lines 82-91): find by email or create with
the display name derived from the identity. -/
def resolveUser (db : DB) (email : String) : DB × UserRec :=
  match db.users.find? (fun u => u.email == email) with
  | some u => (db, u)
  | none =>
    let u : UserRec := ⟨db.nextId, email, localPart email⟩
    ({ db with users := db.users ++ [u], nextId := db.nextId + 1 }, u)

/-- Step 2, "Upsert Session" (lines 93-106): reuse only when a usable
numeric handle refers to a session of this user; otherwise create a
session titled from the identity. -/
def resolveSession (db : DB) (user : UserRec) (email : String)
    (sid : Option String) : DB × SessionRec :=
  let found :=
    match parseHandle sid with
    | some n => db.sessions.find? (fun s => s.id == n && s.user_id == user.id)
    | none => none
  match found with
  | some s => (db, s)
  | none =>
    let s : SessionRec := ⟨db.nextId, user.id, "Chat " ++ email⟩
    ({ db with sessions := db.sessions ++ [s], nextId := db.nextId + 1 }, s)

/-- Step 3, "Upsert Thread" (lines 108-121): the same reuse rule scoped
to the resolved session, except that `is_new_chat` forces creation. -/
def resolveThread (db : DB) (sess : SessionRec) (tid : Option String)
    (is_new_chat : Bool) : DB × ThreadRec :=
  let found :=
    if is_new_chat then none
    else
      match parseHandle tid with
      | some n => db.threads.find? (fun t => t.id == n && t.session_id == sess.id)
      | none => none
  match found with
  | some t => (db, t)
  | none =>
    let cnt := (db.threads.filter (fun t => t.session_id == sess.id)).length
    let t : ThreadRec := ⟨db.nextId, sess.id, "Thread " ++ toString (cnt + 1)⟩
    ({ db with threads := db.threads ++ [t], nextId := db.nextId + 1 }, t)

/-- Appending one `ChatMessage` row and committing (lines 124-130,
237-243). -/
def saveMessage (db : DB) (tid : Nat) (role content : String) : DB :=
  { db with messages := db.messages ++ [⟨tid, role, content⟩] }

/-! ## Provider selection (`app/services/chat_factory.py`) -/

inductive Strategy where
  | botpress
  | ollama
  | openai
  deriving DecidableEq

/-- Python exception values relevant to provider selection.  The spec
speaks of a dedicated `UnsupportedProviderError`; no such class exists
anywhere in the repository, so it is carried here as a separate
constructor purely so that statements can distinguish it from the
`ValueError` the source actually raises. -/
inductive PyError where
  | valueError (msg : String)
  | unsupportedProviderError (msg : String)
  deriving DecidableEq

/-- `ChatFactory.get_strategy` (chat_factory.py lines 7-16): dispatch on
the lower-cased provider name, raising `ValueError` on an unknown
name. -/
def get_strategy (provider : String) : Except PyError Strategy :=
  if pyLower provider = "botpress" then .ok .botpress
  else if pyLower provider = "ollama" then .ok .ollama
  else if pyLower provider = "openai" then .ok .openai
  else .error (.valueError ("Unknown chat provider: " ++ provider))

/-! ## The chat turn (chat_router.py lines 82-258)

The provider adapter's stream is an oracle (`chunks`), as are the JSON
decoder and truthiness (as in `eventGenerator`).  The Redis mirroring of
steps 4 and 7 never touches the relational store and is modelled
separately by `RedisService_rpush` below; it is therefore omitted from
the relational turn function. -/

structure TurnResult (J : Type) where
  db : DB
  sess : SessionRec
  thr : ThreadRec
  outcome : Except PyError (List (SSEEvent J) × List Char)

/-- The relational effects of one `POST /chat` turn in source order:
resolve user, session, thread; persist the inbound `user` message;
select the provider (a `ValueError` here ends the request, the already
committed rows staying in place); stream; persist the accumulated
`assistant` reply if nonempty. -/
def chat_endpoint_core {J : Type} (parse : List Char → Option J)
    (truthy : J → Bool) (db0 : DB) (req : ChatRequest)
    (chunks : List (List Char)) : TurnResult J :=
  let r1 := resolveUser db0 req.email
  let r2 := resolveSession r1.1 r1.2 req.email req.session_id
  let r3 := resolveThread r2.1 r2.2 req.thread_id req.is_new_chat
  let db4 := saveMessage r3.1 r3.2.id "user" req.message
  match get_strategy req.provider with
  | .error e => ⟨db4, r2.2, r3.2, .error e⟩
  | .ok _ =>
    let gen := eventGenerator parse truthy chunks
    let db5 :=
      if gen.2.full_content.isEmpty then db4
      else saveMessage db4 r3.2.id "assistant" ⟨gen.2.full_content⟩
    ⟨db5, r2.2, r3.2, .ok (gen.1, gen.2.full_content)⟩

/-! ## The Acts store and `find_by_filters`
(`app/repository/acts_repo.py` lines 66-128, `app/schema/acts_dto.py`)

Rows are the nullable columns of the `acts` table.  SQL `=` on a NULL
column is never true, and `ILIKE 'all'` with no wildcard is
case-insensitive equality, also never true on NULL. -/

structure ActRec where
  state : Option String
  industry : Option String
  company_type : Option String
  legislative_area : Option String
  central_acts : Option String
  state_acts : Option String
  employee_applicability : Option String
  deriving DecidableEq

structure ActsFilter where
  state : Option String
  industry : Option String
  legislative_area : Option String
  employee_applicability : Option String
  search : Option String
  skip : Nat
  limit : Nat

/-- SQL `column = value` on a nullable column. -/
def sqlEq (v : Option String) (x : String) : Bool :=
  match v with
  | none => false
  | some s => s == x

/-- SQL `column ILIKE pat` for a wildcard-free pattern: case-insensitive
equality, false on NULL. -/
def sqlIlikeConst (v : Option String) (pat : String) : Bool :=
  match v with
  | none => false
  | some s => pyLower s == pat

/-- SQL `column ILIKE '%term%'`: case-insensitive containment, false on
NULL. -/
def sqlIlikeContains (v : Option String) (term : String) : Bool :=
  match v with
  | none => false
  | some s => strContains (pyLower s).data (pyLower term).data

/-- Python truthiness of an optional string filter value (`if
filters.state:` — absent and empty both skip the filter). -/
def strTruthy : Option String → Bool
  | none => false
  | some s => !s.isEmpty

/-- The conjunction of filter clauses `find_by_filters` builds
(acts_repo.py lines 75-117).  Note the asymmetry taken verbatim from
the source: the `state` clause accepts the sentinels `all` and
`central`, the other three dimensions accept only `all`. -/
def actsMatches (f : ActsFilter) (a : ActRec) : Bool :=
  (if strTruthy f.state then
     match f.state with
     | some x => sqlEq a.state x || sqlIlikeConst a.state "all" ||
         sqlIlikeConst a.state "central"
     | none => true
   else true) &&
  (if strTruthy f.industry then
     match f.industry with
     | some x => sqlEq a.industry x || sqlIlikeConst a.industry "all"
     | none => true
   else true) &&
  (if strTruthy f.legislative_area then
     match f.legislative_area with
     | some x => sqlEq a.legislative_area x || sqlIlikeConst a.legislative_area "all"
     | none => true
   else true) &&
  (if strTruthy f.employee_applicability then
     match f.employee_applicability with
     | some x => sqlEq a.employee_applicability x ||
         sqlIlikeConst a.employee_applicability "all"
     | none => true
   else true) &&
  (if strTruthy f.search then
     match f.search with
     | some t => sqlIlikeContains a.company_type t ||
         sqlIlikeContains a.central_acts t || sqlIlikeContains a.state_acts t
     | none => true
   else true)

/-- `find_by_filters` (lines 66-128): filter, count before pagination,
then `offset(skip).limit(limit)`. -/
def find_by_filters (acts : List ActRec) (f : ActsFilter) :
    List ActRec × Nat :=
  let q := acts.filter (actsMatches f)
  ((q.drop f.skip).take f.limit, q.length)

/-! ## The recent-history cache
(`app/services/redis_service.py` lines 83-94, `app/constants.py`) -/

def REDIS_CHAT_HISTORY_MAX_LEN : Nat := 50
def REDIS_CHAT_HISTORY_TTL_SECONDS : Nat := 86400

structure RedisEntry where
  items : List String
  ttl : Nat
  deriving DecidableEq

/-- The key-value store: an association list keyed by strings. -/
abbrev RedisState := List (String × RedisEntry)

def rLookup (st : RedisState) (k : String) : Option RedisEntry :=
  (st.find? (fun p => p.1 == k)).map (fun p => p.2)

/-- Redis `SET`: the state is read through `rLookup` only, so the
newest binding for a key simply shadows older ones. -/
def rSet (st : RedisState) (k : String) (e : RedisEntry) : RedisState :=
  (k, e) :: st

/-- The effect of the `try` body of `RedisService.rpush` (lines 85-92):
`RPUSH` appends at the tail, `LTRIM key -max_len -1` keeps the last
`max_len` elements (dropping from the head), `EXPIRE` refreshes the
TTL. -/
def rpushOp (st : RedisState) (k v : String) (maxLen ttl : Nat) : RedisState :=
  let cur := match rLookup st k with
    | some e => e.items
    | none => []
  let items := cur ++ [v]
  rSet st k ⟨items.drop (items.length - maxLen), ttl⟩

/-- `RedisService.rpush` with the client interaction as an oracle: when
the client raises (`failure = some msg`) the exception is caught and
logged (the `Bool` result), never re-raised — the function is total and
the caller sees no error. -/
def RedisService_rpush (failure : Option String) (st : RedisState)
    (k v : String) (maxLen ttl : Nat) : RedisState × Bool :=
  match failure with
  | some _ => (st, true)
  | none => (rpushOp st k v maxLen ttl, false)

/-! ## The Excel import pipeline
(`app/services/excel_import_service.py`, `app/services/import_scheduler.py`,
`app/repository/acts_repo.py` lines 12-64)

The raw worksheet as `pd.read_excel` returns it (after the header
renaming, which only fixes column names) is a list of rows over the
fixed Acts schema: the helper `sl_no` column plus the seven content
columns in source order `state, industry, company_type,
legislative_area, central_acts, state_acts, employee_applicability`
(indices 0-6 of `content`).  Because the schema is fixed in this model,
the missing-column branch of `validate_data` is not representable; no
claim below depends on it. -/

structure XRow where
  sl_no : Option String
  content : List (Option String)
  deriving DecidableEq

/-- A row every column of which is NaN (`row.isna().all()` /
`dropna(how='all')`). -/
def rowAllNull (r : XRow) : Bool :=
  r.sl_no.isNone && r.content.all (fun x => x.isNone)

def dropAllNull (df : List XRow) : List XRow :=
  df.filter (fun r => !rowAllNull r)

/-- One step of pandas `ffill` on the content columns: a present value
stays, a NaN takes the last value seen above in the same column. -/
def fillContent : List (Option String) → List (Option String) → List (Option String)
  | _, [] => []
  | [], _ :: _ => []
  | l :: ls, x :: xs =>
    (match x with
     | some v => some v
     | none => l) :: fillContent ls xs

/-- Row-by-row forward fill of the content columns, carrying the last
filled row (`df[col] = df[col].ffill()` for every content column;
`sl_no` is not in `columns_to_fill` and is left alone). -/
def ffillRows (last : List (Option String)) : List XRow → List XRow
  | [] => []
  | r :: rest =>
    let c := fillContent last r.content
    ⟨r.sl_no, c⟩ :: ffillRows c rest

/-- `parse_excel_file` after the external read (lines 38-86): drop
all-NaN rows, then forward-fill the content columns. -/
def parse_excel_file (raw : List XRow) : List XRow :=
  ffillRows (List.replicate 7 none) (dropAllNull raw)

/-- `validate_data` (lines 88-118) on the fixed-schema model: empty
frame invalid; entirely-null key columns (state, industry) invalid. -/
def validate_data (df : List XRow) : Bool × String :=
  if df.isEmpty then (false, "Excel file is empty")
  else if df.any (fun r => (r.content.getD 0 none).isSome) ||
          df.any (fun r => (r.content.getD 1 none).isSome) then (true, "")
  else (false, "No valid data found in key columns (state, industry)")

/-- Per-field transform of `transform_dataframe_to_acts`: NaN to
absent, strings stripped of surrounding whitespace. -/
def cleanField (v : Option String) : Option String :=
  match v with
  | none => none
  | some s => some (pyStrip s)

def toActRec (r : XRow) : ActRec :=
  ⟨cleanField (r.content.getD 0 none), cleanField (r.content.getD 1 none),
   cleanField (r.content.getD 2 none), cleanField (r.content.getD 3 none),
   cleanField (r.content.getD 4 none), cleanField (r.content.getD 5 none),
   cleanField (r.content.getD 6 none)⟩

/-- `transform_dataframe_to_acts` (lines 120-158): skip all-NaN rows,
clean each field, keep a row only when it has a truthy state or
industry (`act_dict.get('state') or act_dict.get('industry')` — the
empty string is falsy in Python). -/
def transform_dataframe_to_acts (df : List XRow) : List ActRec :=
  df.filterMap (fun r =>
    if rowAllNull r then none
    else
      let a := toActRec r
      if strTruthy a.state || strTruthy a.industry then some a else none)

/-- `Acts.bulk_insert` (acts_repo.py lines 47-64): an empty batch
returns 0 before touching the engine; otherwise the single transaction
either raises (rolled back, re-raised to the caller) or commits, and
the function returns the length of the input batch.  The engine outcome
is the oracle `dbEffect`. -/
def bulk_insert (dbEffect : Except String Unit) (batch : List ActRec) :
    Except String Nat :=
  if batch.isEmpty then .ok 0
  else
    match dbEffect with
    | .error m => .error m
    | .ok _ => .ok batch.length

/-- What the repository call inside the import job did for one file's
batch: raised, or returned a count. -/
inductive InsertBehavior where
  | raises (msg : String)
  | returns (n : Nat)
  deriving DecidableEq

/-- One discovered file, with its external interactions as oracles: the
outcome of reading it with pandas, and the behaviour of the
`bulk_insert` call on its batch. -/
structure FileSpec where
  name : String
  raw : Except String (List XRow)
  insert : InsertBehavior

/-- `process_import` (excel_import_service.py lines 160-188): re-parse,
validate, transform; any internal exception is caught and reported as
`(False, msg, 0)`. -/
def process_import (rawRes : Except String (List XRow)) :
    Bool × String × Nat :=
  match rawRes with
  | .error m => (false, "Error processing: " ++ m, 0)
  | .ok raw =>
    let df := parse_excel_file raw
    let v := validate_data df
    if !v.1 then (false, v.2, 0)
    else
      let acts := transform_dataframe_to_acts df
      if acts.isEmpty then (false, "No valid records found after transformation", 0)
      else (true, "Data parsed successfully", acts.length)

/-- Outcome of one iteration of the per-file loop of `run_import_job`
(import_scheduler.py lines 90-132): contributions to the two counters
and where the file was archived (`some true` = `processed/`,
`some false` = `failed/`). -/
structure FileResult where
  processedDelta : Nat
  failedDelta : Nat
  archivedTo : Option Bool
  deriving DecidableEq

/-- The body of the per-file loop: parse/validate/transform to get the
expected count (a raise here is caught by the per-file `except`),
`process_import`, then on success a `bulk_insert` whose returned count
must equal the expected count — any shortfall archives the file to
`failed/` and counts it as a failure. -/
def processOneFile (fs : FileSpec) : FileResult :=
  match fs.raw with
  | .error _ => ⟨0, 1, some false⟩
  | .ok raw =>
    let df := parse_excel_file raw
    let acts := transform_dataframe_to_acts df
    let expected := acts.length
    let res := process_import fs.raw
    if res.1 && decide (0 < expected) then
      match fs.insert with
      | .raises _ => ⟨0, 1, some false⟩
      | .returns n =>
        if n = expected then ⟨n, 0, some true⟩
        else ⟨0, 1, some false⟩
    else ⟨0, 1, some false⟩

inductive JobStatus where
  | idle
  | running
  | completed
  | failed
  deriving DecidableEq

/-- The terminal job-status record `run_import_job` writes. -/
structure JobStatusRec where
  status : JobStatus
  records_processed : Nat
  records_failed : Nat
  deriving DecidableEq

/-- `run_import_job` (lines 57-159): a raise during the folder scan is
the only way to reach the outer `except` (the status writes swallow
their own errors), producing terminal status `failed`; an empty scan
writes `idle`; otherwise every discovered file runs through the
per-file loop and the terminal status is `completed` with the
aggregated counters. -/
def run_import_job (scan : Except String (List FileSpec)) : JobStatusRec :=
  match scan with
  | .error _ => ⟨.failed, 0, 0⟩
  | .ok files =>
    if files.isEmpty then ⟨.idle, 0, 0⟩
    else
      let results := files.map processOneFile
      ⟨.completed, (results.map (fun r => r.processedDelta)).sum,
        (results.map (fun r => r.failedDelta)).sum⟩

/-! ## Helper lemmas -/

lemma rLookup_rSet_self (st : RedisState) (k : String) (e : RedisEntry) :
    rLookup (rSet st k e) k = some e := by
  simp [rLookup, rSet, List.find?_cons]

/-- Unfolding equation for `processOneFile` on a successfully read
file. -/
lemma processOneFile_eq (name : String) (raw : List XRow) (ins : InsertBehavior) :
    processOneFile ⟨name, Except.ok raw, ins⟩ =
      (if ((process_import (Except.ok raw)).1 &&
            decide (0 < (transform_dataframe_to_acts (parse_excel_file raw)).length)) = true
       then
         match ins with
         | .raises _ => ⟨0, 1, some false⟩
         | .returns n =>
           if n = (transform_dataframe_to_acts (parse_excel_file raw)).length
           then ⟨n, 0, some true⟩
           else ⟨0, 1, some false⟩
       else ⟨0, 1, some false⟩) := rfl

lemma run_import_job_failed_sum (l : List FileSpec) :
    (run_import_job (Except.ok l)).records_failed =
      ((l.map processOneFile).map (fun r => r.failedDelta)).sum := by
  cases l with
  | nil => rfl
  | cons a t => rfl

lemma run_import_job_processed_sum (l : List FileSpec) :
    (run_import_job (Except.ok l)).records_processed =
      ((l.map processOneFile).map (fun r => r.processedDelta)).sum := by
  cases l with
  | nil => rfl
  | cons a t => rfl

/-! ## Sample data for witnesses -/

def sampleContent : List (Option String) :=
  [some "Maharashtra", some "IT", some "Pvt Ltd", some "Labour",
   some "Act A", some "Act B", some "10-50"]

def sampleXRow : XRow := ⟨some "1", sampleContent⟩

def sampleRaw : List XRow := [sampleXRow]

/-- A file whose batch the store silently shortens: `bulk_insert`
reports 5 where 1 was expected. -/
def mismatchFile : FileSpec := ⟨"acts.xlsx", .ok sampleRaw, .returns 5⟩

/-- A file whose pandas read raises. -/
def raisingFile : FileSpec := ⟨"bad.xlsx", .error "corrupt workbook", .returns 0⟩

/-- A file that imports cleanly (1 row expected, 1 row inserted). -/
def goodFile : FileSpec := ⟨"ok.xlsx", .ok sampleRaw, .returns 1⟩

/-! ## Claim C2 — row-count integrity of `bulk_insert` and the
count-mismatch policy of the import job -/

/-- Claim C2: every successful `bulk_insert` call returns exactly the
length of the input batch; and in `run_import_job`, a file whose
`bulk_insert` return differs from the expected (transformed) count is
archived to the failed folder and counted as a failure, never as a
partial success. -/
theorem c2_theorem :
    (∀ (eff : Except String Unit) (batch : List ActRec) (n : Nat),
        bulk_insert eff batch = Except.ok n → n = batch.length) ∧
    (∀ (fs : FileSpec) (raw : List XRow) (n : Nat),
        fs.raw = Except.ok raw → fs.insert = InsertBehavior.returns n →
        n ≠ (transform_dataframe_to_acts (parse_excel_file raw)).length →
        processOneFile fs = ⟨0, 1, some false⟩) := by
  constructor
  · intro eff batch n h
    unfold bulk_insert at h
    cases hb : batch.isEmpty with
    | true =>
      rw [hb] at h
      simp only [if_true] at h
      cases h
      exact (List.isEmpty_iff_length_eq_zero.mp hb).symm
    | false =>
      rw [hb] at h
      simp only [Bool.false_eq_true, if_false] at h
      cases eff with
      | error m => exact absurd h (by simp)
      | ok u =>
        cases h
        rfl
  · intro fs raw n h1 h2 h3
    obtain ⟨name, fraw, fins⟩ := fs
    simp only at h1 h2
    subst h1
    subst h2
    rw [processOneFile_eq]
    split
    · exact if_neg h3
    · rfl

/-- Witness for C2 at concrete inputs: a successful one-row insert
returns 1, and `mismatchFile` (1 expected, 5 reported) is archived to
`failed/` with a failure count of 1. -/
theorem c2_witness :
    (1 : Nat) = (transform_dataframe_to_acts (parse_excel_file sampleRaw)).length ∧
    processOneFile mismatchFile = ⟨0, 1, some false⟩ := by
  constructor
  · have h := c2_theorem.1 (Except.ok ()) (transform_dataframe_to_acts
      (parse_excel_file sampleRaw)) 1 (by rfl)
    simpa using h
  · exact c2_theorem.2 mismatchFile sampleRaw 5 rfl rfl (by decide)

/-! ## Claim C4 — per-file failure containment and terminal status -/

/-- Claim C4: a raise while processing one discovered file is caught,
counted as exactly one per-file failure, and the remaining files still
contribute their own results; with a nonempty scan the terminal status
is `completed` even when files failed, and `failed` is written only
when the scan itself raised before the per-file loop began. -/
theorem c4_theorem :
    (∀ m, run_import_job (Except.error m) = ⟨JobStatus.failed, 0, 0⟩) ∧
    (∀ files : List FileSpec, files ≠ [] →
        (run_import_job (Except.ok files)).status = JobStatus.completed) ∧
    (∀ files : List FileSpec,
        (run_import_job (Except.ok files)).status ≠ JobStatus.failed) ∧
    (∀ (pre post : List FileSpec) (fs : FileSpec),
        ((∃ m, fs.raw = Except.error m) ∨ (∃ m, fs.insert = InsertBehavior.raises m)) →
        processOneFile fs = ⟨0, 1, some false⟩ ∧
        (run_import_job (Except.ok (pre ++ fs :: post))).records_failed =
          (run_import_job (Except.ok pre)).records_failed + 1 +
          (run_import_job (Except.ok post)).records_failed ∧
        (run_import_job (Except.ok (pre ++ fs :: post))).records_processed =
          (run_import_job (Except.ok pre)).records_processed +
          (run_import_job (Except.ok post)).records_processed) := by
  refine ⟨fun m => rfl, ?_, ?_, ?_⟩
  · intro files h
    cases files with
    | nil => exact absurd rfl h
    | cons a t => rfl
  · intro files
    cases files with
    | nil => simp [run_import_job]
    | cons a t => simp [run_import_job]
  · intro pre post fs h
    have hf : processOneFile fs = ⟨0, 1, some false⟩ := by
      obtain ⟨name, fraw, fins⟩ := fs
      simp only at h
      rcases h with ⟨m, hm⟩ | ⟨m, hm⟩
      · subst hm
        rfl
      · subst hm
        cases fraw with
        | error m2 => rfl
        | ok raw =>
          rw [processOneFile_eq]
          split
          · rfl
          · rfl
    refine ⟨hf, ?_, ?_⟩
    · rw [run_import_job_failed_sum, run_import_job_failed_sum,
        run_import_job_failed_sum]
      simp [hf]
      omega
    · rw [run_import_job_processed_sum, run_import_job_processed_sum,
        run_import_job_processed_sum]
      simp [hf]

/-- Witness for C4 at concrete inputs: a raising scan is terminal
`failed`; a batch of `goodFile`, `raisingFile`, `mismatchFile` still
terminates `completed`, the raising file counting as exactly one
failure while its neighbours are processed. -/
theorem c4_witness :
    run_import_job (Except.error "scan blew up") = ⟨JobStatus.failed, 0, 0⟩ ∧
    (run_import_job (Except.ok [goodFile, raisingFile, mismatchFile])).status =
      JobStatus.completed ∧
    processOneFile raisingFile = ⟨0, 1, some false⟩ ∧
    (run_import_job (Except.ok ([goodFile] ++ raisingFile :: [mismatchFile]))).records_failed =
      (run_import_job (Except.ok [goodFile])).records_failed + 1 +
      (run_import_job (Except.ok [mismatchFile])).records_failed := by
  have h4 := (c4_theorem.2.2.2 [goodFile] [mismatchFile] raisingFile
    (Or.inl ⟨"corrupt workbook", rfl⟩))
  exact ⟨c4_theorem.1 "scan blew up",
    c4_theorem.2.1 [goodFile, raisingFile, mismatchFile] (by simp),
    h4.1, h4.2.1⟩

/-! ## Claim C9 — bounded, expiring, non-throwing history append -/

/-- Claim C9: after any append through `rpushOp` with the configured
bounds, the key's list holds at most `REDIS_CHAT_HISTORY_MAX_LEN`
entries, trimmed from the head (the kept list is a suffix of the old
list plus the new element), and carries the 24-hour TTL; and
`RedisService.rpush` swallows any client failure instead of raising,
leaving the state as it was. -/
theorem c9_theorem :
    (∀ (st : RedisState) (k v : String) (e : RedisEntry),
        rLookup (rpushOp st k v REDIS_CHAT_HISTORY_MAX_LEN
          REDIS_CHAT_HISTORY_TTL_SECONDS) k = some e →
        e.items.length ≤ REDIS_CHAT_HISTORY_MAX_LEN ∧
        e.ttl = REDIS_CHAT_HISTORY_TTL_SECONDS ∧
        e.items <:+ ((match rLookup st k with
          | some e0 => e0.items
          | none => []) ++ [v])) ∧
    (∀ (m : String) (st : RedisState) (k v : String),
        RedisService_rpush (some m) st k v REDIS_CHAT_HISTORY_MAX_LEN
          REDIS_CHAT_HISTORY_TTL_SECONDS = (st, true)) := by
  constructor
  · intro st k v e he
    unfold rpushOp at he
    rw [rLookup_rSet_self] at he
    cases he
    cases h0 : rLookup st k with
    | none =>
      refine ⟨?_, rfl, ?_⟩
      · simp [REDIS_CHAT_HISTORY_MAX_LEN]
      · exact List.drop_suffix _ _
    | some e0 =>
      refine ⟨?_, rfl, ?_⟩
      · simp only [List.length_drop]
        omega
      · exact List.drop_suffix _ _
  · intro m st k v
    rfl

/-- Witness for C9 at concrete inputs: appending to a key holding 50
entries keeps the length at 50 with the oldest entry trimmed, and a
failing client call returns the untouched state without raising. -/
theorem c9_witness :
    (({ items := (List.range 50).map (fun i => toString i) ++ ["new"], ttl := 86400 }
        : RedisEntry).items.drop 1).length ≤ REDIS_CHAT_HISTORY_MAX_LEN ∧
    RedisService_rpush (some "connection refused") [] "chat_history:7:9" "hello"
      REDIS_CHAT_HISTORY_MAX_LEN REDIS_CHAT_HISTORY_TTL_SECONDS = ([], true) := by
  constructor
  · have h := c9_theorem.1
      [("chat_history:7:9", ⟨(List.range 50).map (fun i => toString i), 86400⟩)]
      "chat_history:7:9" "new"
      ⟨((List.range 50).map (fun i => toString i) ++ ["new"]).drop 1, 86400⟩
      (by rfl)
    simpa using h.1
  · exact c9_theorem.2 "connection refused" [] "chat_history:7:9" "hello"

/-- Pagination with `skip = 0` and `limit = length` of the unfiltered
list returns the whole filtered list. -/
lemma pagedFilter_take {α : Type} (l : List α) (p : α → Bool) :
    (l.filter p).take l.length = l.filter p :=
  List.take_of_length_le (List.length_filter_le p l)

/-! ## Claim C8 — Acts filter sentinel semantics -/

/-- A row universally applicable by industry: its `industry` column
holds the sentinel `Central`. -/
def centralIndustryAct : ActRec :=
  ⟨some "Delhi", some "Central", some "Pvt Ltd", some "Labour",
   some "Act A", some "Act B", some "10-50"⟩

/-- A row whose `state` column holds the sentinel `Central`. -/
def centralStateAct : ActRec :=
  ⟨some "Central", some "Retail", some "LLP", some "Tax",
   some "Act C", some "Act D", some "50+"⟩

/-- Counterexample for C8 as stated: the claim says every dimension
accepts the sentinel `central`, but a row whose `industry` is
`"Central"` is excluded by an industry filter (`find_by_filters` only
grants `central` to the `state` clause), even though the same sentinel
on `state` does pass a state filter. -/
theorem c8_counterexample :
    find_by_filters [centralIndustryAct]
      ⟨none, some "Retail", none, none, none, 0, 10⟩ = ([], 0) ∧
    actsMatches ⟨none, some "Retail", none, none, none, 0, 10⟩
      centralIndustryAct = false ∧
    actsMatches ⟨some "Delhi", none, none, none, none, 0, 10⟩
      centralStateAct = true := by
  refine ⟨?_, ?_, ?_⟩ <;> decide

/-- Claim C8 as amended: with a nonempty filter value on one dimension
and no other filters, `find_by_filters` returns exactly the rows whose
stored value matches exactly or is the sentinel `all` compared
case-insensitively — with `central` additionally accepted on the
`state` dimension only — together with their count; stored NULLs never
pass. -/
theorem c8_theorem :
    (∀ (acts : List ActRec) (x : String), x.isEmpty = false →
        find_by_filters acts ⟨some x, none, none, none, none, 0, acts.length⟩ =
          (acts.filter (fun a =>
             match a.state with
             | some s => s == x || pyLower s == "all" || pyLower s == "central"
             | none => false),
           (acts.filter (fun a =>
             match a.state with
             | some s => s == x || pyLower s == "all" || pyLower s == "central"
             | none => false)).length)) ∧
    (∀ (acts : List ActRec) (x : String), x.isEmpty = false →
        find_by_filters acts ⟨none, some x, none, none, none, 0, acts.length⟩ =
          (acts.filter (fun a =>
             match a.industry with
             | some s => s == x || pyLower s == "all"
             | none => false),
           (acts.filter (fun a =>
             match a.industry with
             | some s => s == x || pyLower s == "all"
             | none => false)).length)) ∧
    (∀ (acts : List ActRec) (x : String), x.isEmpty = false →
        find_by_filters acts ⟨none, none, some x, none, none, 0, acts.length⟩ =
          (acts.filter (fun a =>
             match a.legislative_area with
             | some s => s == x || pyLower s == "all"
             | none => false),
           (acts.filter (fun a =>
             match a.legislative_area with
             | some s => s == x || pyLower s == "all"
             | none => false)).length)) ∧
    (∀ (acts : List ActRec) (x : String), x.isEmpty = false →
        find_by_filters acts ⟨none, none, none, some x, none, 0, acts.length⟩ =
          (acts.filter (fun a =>
             match a.employee_applicability with
             | some s => s == x || pyLower s == "all"
             | none => false),
           (acts.filter (fun a =>
             match a.employee_applicability with
             | some s => s == x || pyLower s == "all"
             | none => false)).length)) := by
  refine ⟨?_, ?_, ?_, ?_⟩
  · intro acts x hx
    have hp : ∀ a ∈ acts, actsMatches ⟨some x, none, none, none, none, 0, acts.length⟩ a =
        (match a.state with
         | some s => s == x || pyLower s == "all" || pyLower s == "central"
         | none => false) := by
      intro a _
      simp only [actsMatches, strTruthy, hx, Bool.not_false, if_true, if_false,
        Bool.and_true, Bool.false_eq_true]
      cases a.state <;> simp [sqlEq, sqlIlikeConst]
    unfold find_by_filters
    rw [List.filter_congr hp]
    simp [pagedFilter_take]
  · intro acts x hx
    have hp : ∀ a ∈ acts, actsMatches ⟨none, some x, none, none, none, 0, acts.length⟩ a =
        (match a.industry with
         | some s => s == x || pyLower s == "all"
         | none => false) := by
      intro a _
      simp only [actsMatches, strTruthy, hx, Bool.not_false, if_true, if_false,
        Bool.true_and, Bool.and_true, Bool.false_eq_true]
      cases a.industry <;> simp [sqlEq, sqlIlikeConst]
    unfold find_by_filters
    rw [List.filter_congr hp]
    simp [pagedFilter_take]
  · intro acts x hx
    have hp : ∀ a ∈ acts, actsMatches ⟨none, none, some x, none, none, 0, acts.length⟩ a =
        (match a.legislative_area with
         | some s => s == x || pyLower s == "all"
         | none => false) := by
      intro a _
      simp only [actsMatches, strTruthy, hx, Bool.not_false, if_true, if_false,
        Bool.true_and, Bool.and_true, Bool.false_eq_true]
      cases a.legislative_area <;> simp [sqlEq, sqlIlikeConst]
    unfold find_by_filters
    rw [List.filter_congr hp]
    simp [pagedFilter_take]
  · intro acts x hx
    have hp : ∀ a ∈ acts, actsMatches ⟨none, none, none, some x, none, 0, acts.length⟩ a =
        (match a.employee_applicability with
         | some s => s == x || pyLower s == "all"
         | none => false) := by
      intro a _
      simp only [actsMatches, strTruthy, hx, Bool.not_false, if_true, if_false,
        Bool.true_and, Bool.and_true, Bool.false_eq_true]
      cases a.employee_applicability <;> simp [sqlEq, sqlIlikeConst]
    unfold find_by_filters
    rw [List.filter_congr hp]
    simp [pagedFilter_take]

/-- Witness for C8 at concrete inputs: a `state="Delhi"` query over the
two sample rows keeps both (exact match and the `central` sentinel). -/
theorem c8_witness :
    find_by_filters [centralIndustryAct, centralStateAct]
      ⟨some "Delhi", none, none, none, none, 0, 2⟩ =
      ([centralIndustryAct, centralStateAct], 2) := by
  have h := c8_theorem.1 [centralIndustryAct, centralStateAct] "Delhi" (by decide)
  simpa using h

/-! ## Resolver bookkeeping lemmas -/

lemma resolveUser_messages (db : DB) (email : String) :
    (resolveUser db email).1.messages = db.messages := by
  unfold resolveUser
  cases h : db.users.find? (fun u => u.email == email) <;> simp [h]

lemma resolveUser_threads (db : DB) (email : String) :
    (resolveUser db email).1.threads = db.threads := by
  unfold resolveUser
  cases h : db.users.find? (fun u => u.email == email) <;> simp [h]

lemma resolveUser_sessions (db : DB) (email : String) :
    (resolveUser db email).1.sessions = db.sessions := by
  unfold resolveUser
  cases h : db.users.find? (fun u => u.email == email) <;> simp [h]

lemma resolveUser_nextId_le (db : DB) (email : String) :
    db.nextId ≤ (resolveUser db email).1.nextId := by
  unfold resolveUser
  cases h : db.users.find? (fun u => u.email == email) <;> simp [h]

lemma resolveSession_messages (db : DB) (u : UserRec) (email : String)
    (sid : Option String) :
    (resolveSession db u email sid).1.messages = db.messages := by
  unfold resolveSession
  cases h : (match parseHandle sid with
    | some n => db.sessions.find? (fun s : SessionRec => s.id == n && s.user_id == u.id)
    | none => none) <;> simp [h]

lemma resolveSession_threads (db : DB) (u : UserRec) (email : String)
    (sid : Option String) :
    (resolveSession db u email sid).1.threads = db.threads := by
  unfold resolveSession
  cases h : (match parseHandle sid with
    | some n => db.sessions.find? (fun s : SessionRec => s.id == n && s.user_id == u.id)
    | none => none) <;> simp [h]

lemma resolveSession_nextId_le (db : DB) (u : UserRec) (email : String)
    (sid : Option String) :
    db.nextId ≤ (resolveSession db u email sid).1.nextId := by
  unfold resolveSession
  cases h : (match parseHandle sid with
    | some n => db.sessions.find? (fun s : SessionRec => s.id == n && s.user_id == u.id)
    | none => none) <;> simp [h]

lemma resolveThread_messages (db : DB) (sess : SessionRec) (tid : Option String)
    (inc : Bool) :
    (resolveThread db sess tid inc).1.messages = db.messages := by
  unfold resolveThread
  cases h : (if inc then none
    else match parseHandle tid with
      | some n => db.threads.find? (fun t : ThreadRec => t.id == n && t.session_id == sess.id)
      | none => none) <;> simp [h]

/-! ## Claim C5 — unknown provider name -/

/-- The empty database. -/
def emptyDB : DB := ⟨[], [], [], [], 0⟩

/-- A request naming a provider no adapter exists for. -/
def pigeonReq : ChatRequest :=
  ⟨none, none, "guest@x.com", "hello", "carrierpigeon", false⟩

/-- Counterexample for C5 as stated: the factory rejects an unknown
provider with a plain `ValueError`, not with the dedicated
`UnsupportedProviderError` the claim names (no such class exists in the
repository). -/
theorem c5_counterexample :
    get_strategy "carrierpigeon" =
      Except.error (PyError.valueError "Unknown chat provider: carrierpigeon") ∧
    Except.error (α := Strategy)
        (PyError.valueError "Unknown chat provider: carrierpigeon") ≠
      Except.error (PyError.unsupportedProviderError
        "Unknown chat provider: carrierpigeon") := by
  constructor
  · rfl
  · intro h
    cases h

/-- Claim C5 as amended: a chat request whose provider name is not
`botpress`, `ollama` or `openai` (case-insensitive) fails provider
selection with `ValueError` (the spec's `UnsupportedProviderError` does
not exist in the code) and no assistant reply is produced; because
message persistence (step 4) strictly precedes provider selection
(step 5), at that point the inbound user message is already persisted
against the resolved thread — the only row the turn adds. -/
theorem c5_theorem {J : Type} (parse : List Char → Option J) (truthy : J → Bool)
    (db : DB) (req : ChatRequest) (chunks : List (List Char))
    (h1 : pyLower req.provider ≠ "botpress")
    (h2 : pyLower req.provider ≠ "ollama")
    (h3 : pyLower req.provider ≠ "openai") :
    (chat_endpoint_core parse truthy db req chunks).outcome =
      Except.error (PyError.valueError ("Unknown chat provider: " ++ req.provider)) ∧
    (chat_endpoint_core parse truthy db req chunks).db.messages =
      db.messages ++
        [⟨(chat_endpoint_core parse truthy db req chunks).thr.id, "user", req.message⟩] := by
  have hg : get_strategy req.provider =
      Except.error (PyError.valueError ("Unknown chat provider: " ++ req.provider)) := by
    unfold get_strategy
    rw [if_neg h1, if_neg h2, if_neg h3]
  unfold chat_endpoint_core
  rw [hg]
  refine ⟨rfl, ?_⟩
  show (saveMessage _ _ "user" req.message).messages = _
  unfold saveMessage
  rw [resolveThread_messages, resolveSession_messages, resolveUser_messages]

/-- Witness for C5 at a concrete input: the `carrierpigeon` request on
an empty store fails with the `ValueError` and leaves exactly the one
`user` row on the freshly created thread. -/
theorem c5_witness :
    (chat_endpoint_core (fun _ => (none : Option Nat)) (fun _ => false)
        emptyDB pigeonReq []).outcome =
      Except.error (PyError.valueError "Unknown chat provider: carrierpigeon") ∧
    (chat_endpoint_core (fun _ => (none : Option Nat)) (fun _ => false)
        emptyDB pigeonReq []).db.messages =
      emptyDB.messages ++
        [⟨(chat_endpoint_core (fun _ => (none : Option Nat)) (fun _ => false)
            emptyDB pigeonReq []).thr.id, "user", "hello"⟩] :=
  c5_theorem (fun _ => (none : Option Nat)) (fun _ => false) emptyDB pigeonReq []
    (by decide) (by decide) (by decide)

/-! ## Claim C6 — session ownership isolation -/

lemma mem_id_unique {l : List SessionRec}
    (hp : l.Pairwise (fun a b => a.id ≠ b.id))
    {x r : SessionRec} (hx : x ∈ l) (hr : r ∈ l) (h : x.id = r.id) : x = r := by
  induction l with
  | nil => cases hx
  | cons a t ih =>
    rcases List.pairwise_cons.mp hp with ⟨ha, ht⟩
    rcases List.mem_cons.mp hx with rfl | hx2
    · rcases List.mem_cons.mp hr with rfl | hr2
      · rfl
      · exact absurd h (ha r hr2)
    · rcases List.mem_cons.mp hr with rfl | hr2
      · exact absurd h.symm (ha x hx2)
      · exact ih ht hx2 hr2

/-- Claim C6: a numeric session handle is reused only when the
referenced session exists and belongs to the requesting user; a handle
referencing another user's session yields a freshly created session
instead, so the resolved session's owner always equals the requesting
user. -/
theorem c6_theorem (db : DB) (email : String) (sid : Option String)
    (db1 db2 : DB) (u : UserRec) (s : SessionRec)
    (hwf : db.WF)
    (h1 : resolveUser db email = (db1, u))
    (h2 : resolveSession db1 u email sid = (db2, s)) :
    s.user_id = u.id ∧
    (∀ n, parseHandle sid = some n →
      (∀ r ∈ db1.sessions, r.id = n → r.user_id ≠ u.id) →
      s.id = db1.nextId ∧ s ∉ db1.sessions) ∧
    (∀ n r, parseHandle sid = some n → r ∈ db1.sessions → r.id = n →
      r.user_id = u.id → s = r ∧ db2 = db1) := by
  have hsessions : db1.sessions = db.sessions := by
    have h := resolveUser_sessions db email
    rw [h1] at h
    exact h
  have hnext : db.nextId ≤ db1.nextId := by
    have h := resolveUser_nextId_le db email
    rw [h1] at h
    exact h
  unfold resolveSession at h2
  cases hph : parseHandle sid with
  | none =>
    simp only [hph] at h2
    injection h2 with hA hB
    subst hA
    subst hB
    refine ⟨rfl, ?_, ?_⟩
    · intro n hn
      cases hn
    · intro n r hn
      cases hn
  | some n0 =>
    simp only [hph] at h2
    cases hf : db1.sessions.find? (fun x => x.id == n0 && x.user_id == u.id) with
    | some s0 =>
      rw [hf] at h2
      injection h2 with hA hB
      subst hA
      subst hB
      have hpred := List.find?_some hf
      have hmem := List.mem_of_find?_eq_some hf
      simp only [Bool.and_eq_true, beq_iff_eq] at hpred
      refine ⟨hpred.2, ?_, ?_⟩
      · intro n hn hforeign
        cases hn
        exact absurd hpred.2 (hforeign s0 hmem hpred.1)
      · intro n r hn hr hid huid
        cases hn
        have huniq : db1.sessions.Pairwise (fun a b => a.id ≠ b.id) := by
          rw [hsessions]
          exact hwf.sessions_uniq
        exact ⟨mem_id_unique huniq hmem hr (by rw [hpred.1, hid]), rfl⟩
    | none =>
      rw [hf] at h2
      injection h2 with hA hB
      subst hA
      subst hB
      have hfind := List.find?_eq_none.mp hf
      refine ⟨rfl, ?_, ?_⟩
      · intro n hn hforeign
        refine ⟨rfl, fun hmem => ?_⟩
        have hlt := hwf.sessions_lt _ (hsessions ▸ hmem)
        simp only at hlt
        omega
      · intro n r hn hr hid huid
        cases hn
        have := hfind r hr
        simp [hid, huid] at this

def userA : UserRec := ⟨0, "a@x.com", "a"⟩
def userB : UserRec := ⟨1, "b@x.com", "b"⟩
def sessionA : SessionRec := ⟨2, 0, "Chat a@x.com"⟩

/-- A store holding two users and a session owned by user A. -/
def twoUserDB : DB := ⟨[userA, userB], [sessionA], [], [], 3⟩

/-- The store after user B's request referencing A's session handle. -/
def twoUserDB2 : DB :=
  ⟨[userA, userB], [sessionA, ⟨3, 1, "Chat b@x.com"⟩], [], [], 4⟩

lemma twoUserDB_wf : twoUserDB.WF := by
  refine ⟨?_, ?_, ?_, ?_, ?_, ?_⟩ <;> decide

/-- Witness for C6 at a concrete input: user B referencing user A's
session 2 gets a fresh session (id 3) owned by B. -/
theorem c6_witness :
    (⟨3, 1, "Chat b@x.com"⟩ : SessionRec).user_id = userB.id ∧
    (⟨3, 1, "Chat b@x.com"⟩ : SessionRec).id = twoUserDB.nextId ∧
    (⟨3, 1, "Chat b@x.com"⟩ : SessionRec) ∉ twoUserDB.sessions := by
  have h := c6_theorem twoUserDB "b@x.com" (some "2") twoUserDB twoUserDB2
    userB ⟨3, 1, "Chat b@x.com"⟩ twoUserDB_wf rfl rfl
  have h2 := h.2.1 2 rfl (by decide)
  exact ⟨h.1, h2.1, h2.2⟩

/-! ## Claim C7 — the new-thread flag isolates the old thread -/

lemma resolveThread_new_id (db : DB) (sess : SessionRec) (tid : Option String) :
    (resolveThread db sess tid true).2.id = db.nextId := rfl

/-- The rows a turn appends: the resolved thread, and the full message
list of the store afterwards. -/
lemma chat_core_messages {J : Type} (parse : List Char → Option J)
    (truthy : J → Bool) (db : DB) (req : ChatRequest) (chunks : List (List Char)) :
    (chat_endpoint_core parse truthy db req chunks).thr =
      (resolveThread
        (resolveSession (resolveUser db req.email).1 (resolveUser db req.email).2
          req.email req.session_id).1
        (resolveSession (resolveUser db req.email).1 (resolveUser db req.email).2
          req.email req.session_id).2
        req.thread_id req.is_new_chat).2 ∧
    (chat_endpoint_core parse truthy db req chunks).db.messages =
      db.messages ++
        (⟨(chat_endpoint_core parse truthy db req chunks).thr.id, "user", req.message⟩ ::
          (match get_strategy req.provider with
           | .error _ => []
           | .ok _ =>
             if (eventGenerator parse truthy chunks).2.full_content.isEmpty then []
             else [⟨(chat_endpoint_core parse truthy db req chunks).thr.id, "assistant",
                    ⟨(eventGenerator parse truthy chunks).2.full_content⟩⟩])) := by
  have hbase : (resolveThread
      (resolveSession (resolveUser db req.email).1 (resolveUser db req.email).2
        req.email req.session_id).1
      (resolveSession (resolveUser db req.email).1 (resolveUser db req.email).2
        req.email req.session_id).2
      req.thread_id req.is_new_chat).1.messages = db.messages := by
    rw [resolveThread_messages, resolveSession_messages, resolveUser_messages]
  cases hg : get_strategy req.provider with
  | error e =>
    refine ⟨?_, ?_⟩
    · unfold chat_endpoint_core
      rw [hg]
    · unfold chat_endpoint_core
      rw [hg]
      simp only [saveMessage, hbase]
  | ok strat =>
    cases hc : (eventGenerator parse truthy chunks).2.full_content.isEmpty with
    | true =>
      refine ⟨?_, ?_⟩
      · unfold chat_endpoint_core
        rw [hg]
      · unfold chat_endpoint_core
        rw [hg]
        simp only [hc, if_true, saveMessage, hbase]
    | false =>
      refine ⟨?_, ?_⟩
      · unfold chat_endpoint_core
        rw [hg]
      · unfold chat_endpoint_core
        rw [hg]
        simp only [hc, Bool.false_eq_true, if_false, saveMessage, hbase,
          List.append_assoc, List.cons_append, List.nil_append]

/-- Claim C7: with `is_new_chat = true` and a valid existing thread
handle, the turn goes to a freshly created thread (its id is new, so it
differs from the old thread's id), the old thread's message list is
unchanged after the whole turn, and the store gains exactly the turn's
messages, all on the new thread. -/
theorem c7_theorem {J : Type} (parse : List Char → Option J) (truthy : J → Bool)
    (db : DB) (req : ChatRequest) (chunks : List (List Char)) (oldT : ThreadRec)
    (hwf : db.WF) (hmem : oldT ∈ db.threads)
    (hhandle : req.thread_id = some (toString oldT.id))
    (hnew : req.is_new_chat = true) :
    (chat_endpoint_core parse truthy db req chunks).thr.id ≠ oldT.id ∧
    (chat_endpoint_core parse truthy db req chunks).db.messages =
      db.messages ++
        (⟨(chat_endpoint_core parse truthy db req chunks).thr.id, "user", req.message⟩ ::
          (match get_strategy req.provider with
           | .error _ => []
           | .ok _ =>
             if (eventGenerator parse truthy chunks).2.full_content.isEmpty then []
             else [⟨(chat_endpoint_core parse truthy db req chunks).thr.id, "assistant",
                    ⟨(eventGenerator parse truthy chunks).2.full_content⟩⟩])) ∧
    messagesOfThread (chat_endpoint_core parse truthy db req chunks).db oldT.id =
      messagesOfThread db oldT.id := by
  obtain ⟨hthr, hmsgs⟩ := chat_core_messages parse truthy db req chunks
  have hid : (chat_endpoint_core parse truthy db req chunks).thr.id ≠ oldT.id := by
    rw [hthr, hnew, resolveThread_new_id]
    have h1 := resolveUser_nextId_le db req.email
    have h2 := resolveSession_nextId_le (resolveUser db req.email).1
      (resolveUser db req.email).2 req.email req.session_id
    have h3 := hwf.threads_lt oldT hmem
    omega
  refine ⟨hid, hmsgs, ?_⟩
  unfold messagesOfThread
  rw [hmsgs, List.filter_append]
  have hnil : (⟨(chat_endpoint_core parse truthy db req chunks).thr.id, "user",
      req.message⟩ ::
        (match get_strategy req.provider with
         | .error _ => []
         | .ok _ =>
           if (eventGenerator parse truthy chunks).2.full_content.isEmpty then []
           else [⟨(chat_endpoint_core parse truthy db req chunks).thr.id, "assistant",
                  ⟨(eventGenerator parse truthy chunks).2.full_content⟩⟩])
        : List MsgRec).filter
        (fun m => m.thread_id == oldT.id) = [] := by
    have hbeq : (((chat_endpoint_core parse truthy db req chunks).thr.id == oldT.id)
        : Bool) = false := by
      simp [hid]
    cases get_strategy req.provider with
    | error e => simp [List.filter_cons, hbeq]
    | ok strat =>
      cases hc : (eventGenerator parse truthy chunks).2.full_content.isEmpty with
      | true => simp [List.filter_cons, hbeq]
      | false => simp [List.filter_cons, hbeq]
  rw [hnil, List.append_nil]

def oldThread : ThreadRec := ⟨2, 1, "Thread 1"⟩

/-- A store with one user, one session and one thread carrying one
message. -/
def oneThreadDB : DB :=
  ⟨[⟨0, "guest@x.com", "guest"⟩], [⟨1, 0, "Chat guest@x.com"⟩], [oldThread],
   [⟨2, "user", "hi"⟩], 3⟩

lemma oneThreadDB_wf : oneThreadDB.WF := by
  refine ⟨?_, ?_, ?_, ?_, ?_, ?_⟩ <;> decide

/-- The request that carries the old thread's handle but forces a new
thread. -/
def newChatReq : ChatRequest :=
  ⟨some "1", some "2", "guest@x.com", "again", "botpress", true⟩

/-- Witness for C7 at a concrete input: the turn runs on a fresh
thread and the old thread's single message survives untouched. -/
theorem c7_witness :
    (chat_endpoint_core (fun _ => (none : Option Nat)) (fun _ => false)
        oneThreadDB newChatReq []).thr.id ≠ oldThread.id ∧
    messagesOfThread (chat_endpoint_core (fun _ => (none : Option Nat))
        (fun _ => false) oneThreadDB newChatReq []).db oldThread.id =
      messagesOfThread oneThreadDB oldThread.id := by
  have h := c7_theorem (fun _ => (none : Option Nat)) (fun _ => false)
    oneThreadDB newChatReq [] oldThread oneThreadDB_wf (by decide)
    (by decide) rfl
  exact ⟨h.1, h.2.2⟩

/-! ## String-search lemmas for the marker protocol -/

lemma isSome_strFind_of_infix (pat : List Char) :
    ∀ s : List Char, pat <:+: s → (strFind pat s).isSome := by
  intro s
  induction s with
  | nil =>
    intro h
    obtain ⟨u, t, hut⟩ := h
    have hu : pat = [] := by
      cases u <;> cases pat <;> simp_all
    subst hu
    simp [strFind]
  | cons c rest ih =>
    intro h
    by_cases hp : pat.isPrefixOf (c :: rest)
    · simp [strFind, hp]
    · have hrest : pat <:+: rest := by
        obtain ⟨u, t, hut⟩ := h
        cases u with
        | nil =>
          exfalso
          apply hp
          have hpre : pat <+: c :: rest := ⟨t, by simpa using hut⟩
          exact ( List.isPrefixOf_iff_prefix).mpr hpre
        | cons a u2 =>
          injection hut with h1 h2
          exact ⟨u2, t, h2⟩
      have h2 := ih hrest
      simp only [strFind, hp, Bool.false_eq_true, if_false]
      simpa using h2

lemma infix_of_isSome_strFind (pat : List Char) :
    ∀ s : List Char, (strFind pat s).isSome → pat <:+: s := by
  intro s
  induction s with
  | nil =>
    intro h
    simp only [strFind] at h
    cases hpat : pat.isEmpty with
    | true =>
      have : pat = [] := by
        cases pat
        · rfl
        · simp at hpat
      subst this
      exact ⟨[], [], rfl⟩
    | false =>
      rw [hpat] at h
      simp at h
  | cons c rest ih =>
    intro h
    by_cases hp : pat.isPrefixOf (c :: rest)
    · have hpre : pat <+: c :: rest := ( List.isPrefixOf_iff_prefix).mp hp
      obtain ⟨t, ht⟩ := hpre
      exact ⟨[], t, by simpa using ht⟩
    · simp only [strFind, hp, Bool.false_eq_true, if_false] at h
      have h2 : (strFind pat rest).isSome := by
        cases hsf : strFind pat rest with
        | none => rw [hsf] at h; simp at h
        | some b => simp
      obtain ⟨u, t, hut⟩ := ih h2
      exact ⟨c :: u, t, by simp [hut]⟩

/-- A pattern absent from a string is absent from every prefix of it. -/
lemma strFind_take_none (pat s : List Char) (n : Nat)
    (h : strFind pat s = none) : strFind pat (s.take n) = none := by
  cases hf : strFind pat (s.take n) with
  | none => rfl
  | some b =>
    exfalso
    have h1 : pat <:+: s.take n :=
      infix_of_isSome_strFind pat (s.take n) (by simp [hf])
    have h2 : s.take n <:+: s := by
      refine ⟨[], s.drop n, ?_⟩
      simpa using List.take_append_drop n s
    have h3 := isSome_strFind_of_infix pat s (h1.trans h2)
    rw [h] at h3
    simp at h3

/-! ## Stage-evaluation lemmas for `processChunk` -/

lemma extractMarker_no_begin {J : Type} (parse : List Char → Option J)
    (mb me chunk : List Char) (cur : Option J) (h : strFind mb chunk = none) :
    extractMarker parse mb me chunk cur = (chunk, cur) := by
  unfold extractMarker
  rw [h]

lemma extractMarker_parse_ok {J : Type} (parse : List Char → Option J)
    (mb me chunk : List Char) (cur : Option J) (b e : Nat) (v : J)
    (hb : strFind mb chunk = some b) (he : strFind me chunk = some e)
    (hv : parse (pySlice chunk (b + mb.length) e) = some v) :
    extractMarker parse mb me chunk cur = (chunk.take b, some v) := by
  unfold extractMarker
  simp only [hb, he, hv]

lemma extractMarker_parse_fail {J : Type} (parse : List Char → Option J)
    (mb me chunk : List Char) (cur : Option J) (b e : Nat)
    (hb : strFind mb chunk = some b) (he : strFind me chunk = some e)
    (hv : parse (pySlice chunk (b + mb.length) e) = none) :
    extractMarker parse mb me chunk cur = (chunk, cur) := by
  unfold extractMarker
  simp only [hb, he, hv]

/-- Whenever a marker block would not decode anything (sentinels absent
or payload malformed), it leaves both the chunk and the accumulator
untouched. -/
lemma extractMarker_of_update_none {J : Type} (parse : List Char → Option J)
    (mb me chunk : List Char) (cur : Option J)
    (h : markerUpdate parse mb me chunk = none) :
    extractMarker parse mb me chunk cur = (chunk, cur) := by
  unfold markerUpdate at h
  cases hb : strFind mb chunk with
  | none => exact extractMarker_no_begin parse mb me chunk cur hb
  | some b =>
    rw [hb] at h
    cases he : strFind me chunk with
    | none =>
      unfold extractMarker
      simp only [hb, he]
    | some e =>
      rw [he] at h
      have h2 : parse (pySlice chunk (b + mb.length) e) = none := h
      exact extractMarker_parse_fail parse mb me chunk cur b e hb he h2

lemma extractMarker_of_update_some {J : Type} (parse : List Char → Option J)
    (mb me chunk : List Char) (v : J)
    (h : markerUpdate parse mb me chunk = some v) (cur : Option J) :
    extractMarker parse mb me chunk cur =
      (chunk.take ((strFind mb chunk).getD 0), some v) := by
  unfold markerUpdate at h
  cases hb : strFind mb chunk with
  | none =>
    rw [hb] at h
    have h2 : (none : Option J) = some v := h
    cases h2
  | some b =>
    rw [hb] at h
    cases he : strFind me chunk with
    | none =>
      rw [he] at h
      have h2 : (none : Option J) = some v := h
      cases h2
    | some e =>
      rw [he] at h
      have h2 : parse (pySlice chunk (b + mb.length) e) = some v := h
      rw [extractMarker_parse_ok parse mb me chunk cur b e v hb he h2]
      rfl

/-- The visible-text half of a marker block does not depend on the
accumulator it is fed. -/
lemma extractMarker_fst_indep {J : Type} (parse : List Char → Option J)
    (mb me chunk : List Char) (cur cur2 : Option J) :
    (extractMarker parse mb me chunk cur).1 =
      (extractMarker parse mb me chunk cur2).1 := by
  cases hu : markerUpdate parse mb me chunk with
  | none =>
    rw [extractMarker_of_update_none parse mb me chunk cur hu,
      extractMarker_of_update_none parse mb me chunk cur2 hu]
  | some v =>
    rw [extractMarker_of_update_some parse mb me chunk v hu cur,
      extractMarker_of_update_some parse mb me chunk v hu cur2]

/-- The accumulator after a marker block: overwritten exactly when the
block decoded a payload, kept otherwise. -/
lemma extractMarker_snd {J : Type} (parse : List Char → Option J)
    (mb me chunk : List Char) (cur : Option J) :
    (extractMarker parse mb me chunk cur).2 =
      (match markerUpdate parse mb me chunk with
       | some v => some v
       | none => cur) := by
  cases hu : markerUpdate parse mb me chunk with
  | none => rw [extractMarker_of_update_none parse mb me chunk cur hu]
  | some v => rw [extractMarker_of_update_some parse mb me chunk v hu cur]

lemma stripSwitch_no (chunk : List Char) (h : strFind mSWITCH chunk = none) :
    stripSwitch chunk = chunk := by
  unfold stripSwitch
  rw [h]

lemma stripSwitch_yes (chunk : List Char) (b e : Nat)
    (hb : strFind mSWITCH chunk = some b) (he : strFind mEND_SWITCH chunk = some e) :
    stripSwitch chunk = chunk.take b := by
  unfold stripSwitch
  simp only [hb, he]

lemma processChunk_response {J : Type} (parse : List Char → Option J)
    (truthy : J → Bool) (st : GenState J) (chunk : List Char) :
    (processChunk parse truthy st chunk).2.response =
      stripSwitch (extractMarker parse mDAILY mEND_DAILY
        (extractMarker parse mACTS mEND_ACTS
          (extractMarker parse mCHOICES mEND_CHOICES chunk st.choices_data).1
          st.acts_data).1 none).1 := rfl

lemma processChunk_choices_state {J : Type} (parse : List Char → Option J)
    (truthy : J → Bool) (st : GenState J) (chunk : List Char) :
    (processChunk parse truthy st chunk).1.choices_data =
      (extractMarker parse mCHOICES mEND_CHOICES chunk st.choices_data).2 := rfl

lemma processChunk_acts_state {J : Type} (parse : List Char → Option J)
    (truthy : J → Bool) (st : GenState J) (chunk : List Char) :
    (processChunk parse truthy st chunk).1.acts_data =
      (extractMarker parse mACTS mEND_ACTS
        (extractMarker parse mCHOICES mEND_CHOICES chunk st.choices_data).1
        st.acts_data).2 := rfl

/-! ## Claim C1 — marker extraction in `event_generator` -/

/-- A chunk whose `__CHOICES__` payload is malformed JSON. -/
def badChunk : List Char := "Hi __CHOICES__oops__END_CHOICES__".data

/-- A chunk carrying the bare `__NEXT_MESSAGE__` separator. -/
def nmChunk : List Char := "a__NEXT_MESSAGE__b".data

/-- Counterexample for C1 as stated, on two concrete chunks with the
decoder failing on the malformed payload: (i) when the embedded JSON
does not parse, the chunk is NOT truncated at the begin-sentinel index
— the full marker text is forwarded as visible content (the truncation
statement sits after `json.loads` inside the `try`, so the swallowed
exception skips it); (ii) the bare `__NEXT_MESSAGE__` separator is
never stripped by `event_generator` at all. -/
theorem c1_counterexample :
    (processChunk (fun _ => (none : Option Nat)) (fun _ => true)
        ⟨[], none, none⟩ badChunk).2.response = badChunk ∧
    strFind mCHOICES badChunk = some 3 ∧
    badChunk.take 3 ≠ badChunk ∧
    strContains badChunk mCHOICES = true ∧
    (processChunk (fun _ => (none : Option Nat)) (fun _ => true)
        ⟨[], none, none⟩ nmChunk).2.response = nmChunk ∧
    strContains nmChunk mNEXT_MESSAGE = true := by
  refine ⟨?_, ?_, ?_, ?_, ?_, ?_⟩ <;> decide

/-- Claim C1 as amended.  For a chunk containing a begin/end sentinel
pair (stated here for `__CHOICES__`; the `__ACTS_DATA__` and
`__DAILY_UPDATES__` blocks share the same code shape via
`extractMarker`): (1) when the embedded JSON parses, the visible text
is truncated at the begin-sentinel index and the parsed payload is
exactly the decode of the text sliced between the sentinels
(round-trip); (2) when it does not parse, the chunk is forwarded
untruncated, marker text included, and the accumulator keeps its
previous value; (3) a `__SWITCH_PROVIDER__` pair is stripped
unconditionally; (4) the bare `__NEXT_MESSAGE__` separator is never
stripped. -/
theorem c1_theorem {J : Type} (parse : List Char → Option J) (truthy : J → Bool) :
    (∀ (st : GenState J) (chunk : List Char) (b e : Nat) (v : J),
      strFind mCHOICES chunk = some b →
      strFind mEND_CHOICES chunk = some e →
      parse (pySlice chunk (b + mCHOICES.length) e) = some v →
      strFind mACTS chunk = none →
      strFind mDAILY chunk = none →
      strFind mSWITCH chunk = none →
      (processChunk parse truthy st chunk).2.response = chunk.take b ∧
      (processChunk parse truthy st chunk).1.choices_data = some v) ∧
    (∀ (st : GenState J) (chunk : List Char) (b e : Nat),
      strFind mCHOICES chunk = some b →
      strFind mEND_CHOICES chunk = some e →
      parse (pySlice chunk (b + mCHOICES.length) e) = none →
      strFind mACTS chunk = none →
      strFind mDAILY chunk = none →
      strFind mSWITCH chunk = none →
      (processChunk parse truthy st chunk).2.response = chunk ∧
      (processChunk parse truthy st chunk).1.choices_data = st.choices_data) ∧
    (∀ (st : GenState J) (chunk : List Char) (b e : Nat),
      strFind mSWITCH chunk = some b →
      strFind mEND_SWITCH chunk = some e →
      strFind mCHOICES chunk = none →
      strFind mACTS chunk = none →
      strFind mDAILY chunk = none →
      (processChunk parse truthy st chunk).2.response = chunk.take b) ∧
    (∀ (st : GenState J) (chunk : List Char) (i : Nat),
      strFind mNEXT_MESSAGE chunk = some i →
      strFind mCHOICES chunk = none →
      strFind mACTS chunk = none →
      strFind mDAILY chunk = none →
      strFind mSWITCH chunk = none →
      (processChunk parse truthy st chunk).2.response = chunk) := by
  refine ⟨?_, ?_, ?_, ?_⟩
  · intro st chunk b e v hb he hv hacts hdaily hswitch
    have h1 := extractMarker_parse_ok parse mCHOICES mEND_CHOICES chunk
      st.choices_data b e v hb he hv
    have h2 := extractMarker_no_begin parse mACTS mEND_ACTS (chunk.take b)
      st.acts_data (strFind_take_none mACTS chunk b hacts)
    have h3 := extractMarker_no_begin parse mDAILY mEND_DAILY (chunk.take b)
      (none : Option J) (strFind_take_none mDAILY chunk b hdaily)
    have h4 := stripSwitch_no (chunk.take b) (strFind_take_none mSWITCH chunk b hswitch)
    constructor
    · rw [processChunk_response]
      simp only [h1, h2, h3, h4]
    · rw [processChunk_choices_state, h1]
  · intro st chunk b e hb he hv hacts hdaily hswitch
    have h1 := extractMarker_parse_fail parse mCHOICES mEND_CHOICES chunk
      st.choices_data b e hb he hv
    have h2 := extractMarker_no_begin parse mACTS mEND_ACTS chunk st.acts_data hacts
    have h3 := extractMarker_no_begin parse mDAILY mEND_DAILY chunk
      (none : Option J) hdaily
    have h4 := stripSwitch_no chunk hswitch
    constructor
    · rw [processChunk_response]
      simp only [h1, h2, h3, h4]
    · rw [processChunk_choices_state, h1]
  · intro st chunk b e hb he hchoices hacts hdaily
    have h1 := extractMarker_no_begin parse mCHOICES mEND_CHOICES chunk
      st.choices_data hchoices
    have h2 := extractMarker_no_begin parse mACTS mEND_ACTS chunk st.acts_data hacts
    have h3 := extractMarker_no_begin parse mDAILY mEND_DAILY chunk
      (none : Option J) hdaily
    have h4 := stripSwitch_yes chunk b e hb he
    rw [processChunk_response]
    simp only [h1, h2, h3, h4]
  · intro st chunk i hnm hchoices hacts hdaily hswitch
    have h1 := extractMarker_no_begin parse mCHOICES mEND_CHOICES chunk
      st.choices_data hchoices
    have h2 := extractMarker_no_begin parse mACTS mEND_ACTS chunk st.acts_data hacts
    have h3 := extractMarker_no_begin parse mDAILY mEND_DAILY chunk
      (none : Option J) hdaily
    have h4 := stripSwitch_no chunk hswitch
    rw [processChunk_response]
    simp only [h1, h2, h3, h4]

/-- A chunk with a well-formed `__CHOICES__` payload. -/
def okChunk : List Char := "Hi __CHOICES__[1]__END_CHOICES__".data

/-- The decoder oracle used by the C1/C10 witnesses: decodes the two
JSON arrays appearing in the sample chunks, fails on everything else. -/
def parse12 : List Char → Option Nat := fun s =>
  if s = "[1]".data then some 1
  else if s = "[2]".data then some 2
  else none

/-- Witness for C1 at concrete inputs: the well-formed chunk is
truncated at index 3 with payload `[1]` decoded to 1, and the
`__NEXT_MESSAGE__` chunk passes through verbatim. -/
theorem c1_witness :
    (processChunk parse12 (fun n => n != 0) ⟨[], none, none⟩ okChunk).2.response =
      okChunk.take 3 ∧
    (processChunk parse12 (fun n => n != 0) ⟨[], none, none⟩ okChunk).1.choices_data =
      some 1 ∧
    (processChunk parse12 (fun n => n != 0) ⟨[], none, none⟩ nmChunk).2.response =
      nmChunk := by
  have h1 := (c1_theorem parse12 (fun n => n != 0)).1 ⟨[], none, none⟩ okChunk
    3 17 1 (by decide) (by decide) (by decide) (by decide) (by decide) (by decide)
  have h4 := (c1_theorem parse12 (fun n => n != 0)).2.2.2 ⟨[], none, none⟩ nmChunk
    1 (by decide) (by decide) (by decide) (by decide) (by decide)
  exact ⟨h1.1, h1.2, h4⟩

/-! ## Claim C10 — lifetime of the side-payload accumulators -/

/-- The visible text left of a chunk after the `__CHOICES__` block
alone (like `chunkAfterChoicesActs`, independent of accumulators). -/
def chunkAfterChoices {J : Type} (parse : List Char → Option J)
    (chunk : List Char) : List Char :=
  (extractMarker parse mCHOICES mEND_CHOICES chunk (none : Option J)).1

lemma runChunks_cons {J : Type} (parse : List Char → Option J) (truthy : J → Bool)
    (st : GenState J) (c : List Char) (cs : List (List Char)) :
    runChunks parse truthy st (c :: cs) =
      ((processChunk parse truthy st c).2 ::
        (runChunks parse truthy (processChunk parse truthy st c).1 cs).1,
       (runChunks parse truthy (processChunk parse truthy st c).1 cs).2) := rfl

lemma processChunk_event_choices {J : Type} (parse : List Char → Option J)
    (truthy : J → Bool) (st : GenState J) (chunk : List Char) :
    (processChunk parse truthy st chunk).2.choices =
      (if optTruthy truthy
          ((extractMarker parse mCHOICES mEND_CHOICES chunk st.choices_data).2)
       then (extractMarker parse mCHOICES mEND_CHOICES chunk st.choices_data).2
       else none) := rfl

lemma processChunk_acts_state2 {J : Type} (parse : List Char → Option J)
    (truthy : J → Bool) (st : GenState J) (chunk : List Char) :
    (processChunk parse truthy st chunk).1.acts_data =
      (extractMarker parse mACTS mEND_ACTS (chunkAfterChoices parse chunk)
        st.acts_data).2 := by
  rw [processChunk_acts_state,
    extractMarker_fst_indep parse mCHOICES mEND_CHOICES chunk st.choices_data none]
  rfl

lemma processChunk_event_acts {J : Type} (parse : List Char → Option J)
    (truthy : J → Bool) (st : GenState J) (chunk : List Char) :
    (processChunk parse truthy st chunk).2.acts =
      (if optTruthy truthy
          ((extractMarker parse mACTS mEND_ACTS (chunkAfterChoices parse chunk)
            st.acts_data).2)
       then (extractMarker parse mACTS mEND_ACTS (chunkAfterChoices parse chunk)
            st.acts_data).2
       else none) := by
  have hbase : (processChunk parse truthy st chunk).2.acts =
      (if optTruthy truthy
          ((extractMarker parse mACTS mEND_ACTS
            (extractMarker parse mCHOICES mEND_CHOICES chunk st.choices_data).1
            st.acts_data).2)
       then (extractMarker parse mACTS mEND_ACTS
            (extractMarker parse mCHOICES mEND_CHOICES chunk st.choices_data).1
            st.acts_data).2
       else none) := rfl
  rw [hbase,
    extractMarker_fst_indep parse mCHOICES mEND_CHOICES chunk st.choices_data none]
  rfl

lemma processChunk_event_daily {J : Type} (parse : List Char → Option J)
    (truthy : J → Bool) (st : GenState J) (chunk : List Char) :
    (processChunk parse truthy st chunk).2.dailyUpdates =
      (if optTruthy truthy (dailyPayload parse chunk) then dailyPayload parse chunk
       else none) := by
  have hr : (extractMarker parse mDAILY mEND_DAILY
      (extractMarker parse mACTS mEND_ACTS
        (extractMarker parse mCHOICES mEND_CHOICES chunk st.choices_data).1
        st.acts_data).1 (none : Option J)).2 = dailyPayload parse chunk := by
    rw [extractMarker_fst_indep parse mCHOICES mEND_CHOICES chunk st.choices_data none,
      extractMarker_fst_indep parse mACTS mEND_ACTS
        (extractMarker parse mCHOICES mEND_CHOICES chunk none).1 st.acts_data none,
      extractMarker_snd]
    unfold dailyPayload chunkAfterChoicesActs
    cases markerUpdate parse mDAILY mEND_DAILY
      (extractMarker parse mACTS mEND_ACTS
        (extractMarker parse mCHOICES mEND_CHOICES chunk (none : Option J)).1
        (none : Option J)).1 <;> rfl
  have hbase : (processChunk parse truthy st chunk).2.dailyUpdates =
      (if optTruthy truthy ((extractMarker parse mDAILY mEND_DAILY
          (extractMarker parse mACTS mEND_ACTS
            (extractMarker parse mCHOICES mEND_CHOICES chunk st.choices_data).1
            st.acts_data).1 (none : Option J)).2)
       then (extractMarker parse mDAILY mEND_DAILY
          (extractMarker parse mACTS mEND_ACTS
            (extractMarker parse mCHOICES mEND_CHOICES chunk st.choices_data).1
            st.acts_data).1 (none : Option J)).2
       else none) := rfl
  rw [hbase, hr]

/-- Claim C10 as amended: the `choices_data` / `acts_data` accumulators
are never reset during a turn — as long as no later chunk carries a
successfully decoding marker of the same kind, the once-set (truthy)
payload is attached unchanged to every subsequent event (a later
successful marker overwrites the value, which is what refutes the
literal "the same payload" reading); while `dailyUpdates` is a pure
per-chunk function, attached exactly to the event of the chunk whose
marker produced it. -/
theorem c10_theorem {J : Type} (parse : List Char → Option J) (truthy : J → Bool) :
    (∀ (st : GenState J) (cs : List (List Char)) (v : J),
      st.choices_data = some v → truthy v = true →
      (∀ c ∈ cs, markerUpdate parse mCHOICES mEND_CHOICES c = none) →
      (runChunks parse truthy st cs).2.choices_data = some v ∧
      ∀ ev ∈ (runChunks parse truthy st cs).1, ev.choices = some v) ∧
    (∀ (st : GenState J) (cs : List (List Char)) (v : J),
      st.acts_data = some v → truthy v = true →
      (∀ c ∈ cs,
        markerUpdate parse mACTS mEND_ACTS (chunkAfterChoices parse c) = none) →
      (runChunks parse truthy st cs).2.acts_data = some v ∧
      ∀ ev ∈ (runChunks parse truthy st cs).1, ev.acts = some v) ∧
    (∀ (st : GenState J) (cs : List (List Char)),
      (runChunks parse truthy st cs).1.map (fun ev => ev.dailyUpdates) =
        cs.map (fun c =>
          if optTruthy truthy (dailyPayload parse c) then dailyPayload parse c
          else none)) := by
  refine ⟨?_, ?_, ?_⟩
  · intro st cs
    induction cs generalizing st with
    | nil =>
      intro v h1 h2 h3
      exact ⟨h1, by intro ev hev; cases hev⟩
    | cons c cs ih =>
      intro v h1 h2 h3
      have hc := h3 c (List.mem_cons_self c cs)
      have hkeep : (processChunk parse truthy st c).1.choices_data = some v := by
        rw [processChunk_choices_state, extractMarker_snd, hc, h1]
      have hev : (processChunk parse truthy st c).2.choices = some v := by
        rw [processChunk_event_choices, extractMarker_snd, hc, h1]
        simp [optTruthy, h2]
      have htail := ih (processChunk parse truthy st c).1 v hkeep h2
        (fun x hx => h3 x (List.mem_cons_of_mem c hx))
      rw [runChunks_cons]
      refine ⟨htail.1, ?_⟩
      intro ev hevm
      rcases List.mem_cons.mp hevm with rfl | hm
      · exact hev
      · exact htail.2 ev hm
  · intro st cs
    induction cs generalizing st with
    | nil =>
      intro v h1 h2 h3
      exact ⟨h1, by intro ev hev; cases hev⟩
    | cons c cs ih =>
      intro v h1 h2 h3
      have hc := h3 c (List.mem_cons_self c cs)
      have hkeep : (processChunk parse truthy st c).1.acts_data = some v := by
        rw [processChunk_acts_state2, extractMarker_snd, hc, h1]
      have hev : (processChunk parse truthy st c).2.acts = some v := by
        rw [processChunk_event_acts, extractMarker_snd, hc, h1]
        simp [optTruthy, h2]
      have htail := ih (processChunk parse truthy st c).1 v hkeep h2
        (fun x hx => h3 x (List.mem_cons_of_mem c hx))
      rw [runChunks_cons]
      refine ⟨htail.1, ?_⟩
      intro ev hevm
      rcases List.mem_cons.mp hevm with rfl | hm
      · exact hev
      · exact htail.2 ev hm
  · intro st cs
    induction cs generalizing st with
    | nil => rfl
    | cons c cs ih =>
      rw [runChunks_cons]
      simp only [List.map_cons]
      rw [processChunk_event_daily, ih]

def cChunk1 : List Char := "a__CHOICES__[1]__END_CHOICES__".data
def cChunk2 : List Char := "b__CHOICES__[2]__END_CHOICES__".data

/-- Counterexample for C10 as stated: with a second `__CHOICES__`
marker later in the same turn, the second event does not carry the same
choices payload again — the accumulator is overwritten, so the claim's
universal "carries the same payload" fails on the code. -/
theorem c10_counterexample :
    ((eventGenerator parse12 (fun n => n != 0) [cChunk1, cChunk2]).1.map
      (fun ev => ev.choices)) = [some 1, some 2] ∧
    ((eventGenerator parse12 (fun n => n != 0) [cChunk1, cChunk2]).1.map
      (fun ev => ev.choices)) ≠ [some 1, some 1] := by
  constructor <;> decide

def dailyChunk : List Char := "c__DAILY_UPDATES__[2]__END_DAILY__".data

/-- Witness for C10 at concrete inputs: a truthy accumulator survives
two marker-free chunks and is attached to both events, and the daily
payload is attached exactly to the event of its producing chunk. -/
theorem c10_witness :
    (runChunks parse12 (fun n => n != 0) ⟨[], some 5, none⟩
      ["x".data, "y".data]).2.choices_data = some 5 ∧
    (∀ ev ∈ (runChunks parse12 (fun n => n != 0) ⟨[], some 5, none⟩
      ["x".data, "y".data]).1, ev.choices = some 5) ∧
    (runChunks parse12 (fun n => n != 0) ⟨[], none, none⟩ [dailyChunk]).1.map
        (fun ev => ev.dailyUpdates) =
      [dailyChunk].map (fun c =>
        if optTruthy (fun n => n != 0) (dailyPayload parse12 c)
        then dailyPayload parse12 c else none) := by
  have h1 := (c10_theorem parse12 (fun n => n != 0)).1 ⟨[], some 5, none⟩
    ["x".data, "y".data] 5 rfl (by decide) (by decide)
  have h3 := (c10_theorem parse12 (fun n => n != 0)).2.2 ⟨[], none, none⟩ [dailyChunk]
  exact ⟨h1.1, h1.2, h3⟩

/-! ## Claim C3 — forward fill of merged-cell blocks -/

lemma fillContent_length : ∀ (ls xs : List (Option String)),
    (fillContent ls xs).length = min ls.length xs.length
  | _, [] => by simp [fillContent]
  | [], _ :: _ => by simp [fillContent]
  | l :: ls, x :: xs => by
    simp [fillContent, fillContent_length ls xs, Nat.succ_min_succ]

lemma fillContent_getD_some : ∀ (ls xs : List (Option String)) (i : Nat) (a : String),
    xs.getD i none = some a → i < ls.length →
    (fillContent ls xs).getD i none = some a
  | _, [], i, a => by simp [List.getD]
  | [], x :: xt, i, a => by
    intro _ hls
    simp at hls
  | l :: lt, x :: xt, 0, a => by
    intro h _
    simp only [List.getD_cons_zero] at h
    subst h
    simp [fillContent]
  | l :: lt, x :: xt, i + 1, a => by
    intro h hls
    simp only [List.getD_cons_succ] at h
    simp only [List.length_cons, Nat.add_lt_add_iff_right] at hls
    simp only [fillContent, List.getD_cons_succ]
    exact fillContent_getD_some lt xt i a h hls

lemma fillContent_getD_none : ∀ (ls xs : List (Option String)) (i : Nat),
    xs.getD i none = none → i < ls.length → i < xs.length →
    (fillContent ls xs).getD i none = ls.getD i none
  | _, [], i => by
    intro _ _ h
    simp at h
  | [], x :: xt, i => by
    intro _ hls _
    simp at hls
  | l :: lt, x :: xt, 0 => by
    intro h _ _
    simp only [List.getD_cons_zero] at h
    subst h
    simp [fillContent]
  | l :: lt, x :: xt, i + 1 => by
    intro h hls hxs
    simp only [List.getD_cons_succ] at h
    simp only [List.length_cons, Nat.add_lt_add_iff_right] at hls hxs
    simp only [fillContent, List.getD_cons_succ]
    exact fillContent_getD_none lt xt i h hls hxs

lemma ffillRows_length : ∀ (last : List (Option String)) (rows : List XRow),
    (ffillRows last rows).length = rows.length
  | _, [] => rfl
  | last, r :: t => by
    simp [ffillRows, ffillRows_length]

/-- The per-column carry after forward-filling a block of rows. -/
def lastAfter (last : List (Option String)) (rows : List XRow) :
    List (Option String) :=
  rows.foldl (fun l r => fillContent l r.content) last

lemma ffillRows_append : ∀ (xs ys : List XRow) (last : List (Option String)),
    ffillRows last (xs ++ ys) =
      ffillRows last xs ++ ffillRows (lastAfter last xs) ys
  | [], ys, last => by simp [ffillRows, lastAfter]
  | a :: t, ys, last => by
    have h := ffillRows_append t ys (fillContent last a.content)
    show (⟨a.sl_no, fillContent last a.content⟩ : XRow) ::
        ffillRows (fillContent last a.content) (t ++ ys) =
      ((⟨a.sl_no, fillContent last a.content⟩ : XRow) ::
        ffillRows (fillContent last a.content) t) ++
        ffillRows (lastAfter last (a :: t)) ys
    rw [h]
    rfl

lemma lastAfter_length : ∀ (rows : List XRow) (last : List (Option String)),
    last.length = 7 → (∀ r ∈ rows, r.content.length = 7) →
    (lastAfter last rows).length = 7
  | [], last => by
    intro h _
    exact h
  | a :: t, last => by
    intro h hw
    have hfc : (fillContent last a.content).length = 7 := by
      rw [fillContent_length, h, hw a (List.mem_cons_self a t)]
      exact Nat.min_self 7
    exact lastAfter_length t (fillContent last a.content) hfc
      (fun x hx => hw x (List.mem_cons_of_mem a hx))

/-- Forward fill propagates a carried value through a block of rows
that are blank in that column. -/
lemma ffillRows_all_some (cIdx : Nat) (v : String) :
    ∀ (rows : List XRow) (last : List (Option String)),
    last.length = 7 → cIdx < 7 →
    last.getD cIdx none = some v →
    (∀ r ∈ rows, r.content.length = 7 ∧ r.content.getD cIdx none = none) →
    ∀ r ∈ ffillRows last rows, r.content.getD cIdx none = some v := by
  intro rows
  induction rows with
  | nil =>
    intro last _ _ _ _ r hr
    cases hr
  | cons a t ih =>
    intro last hlen hc hlast hall r hr
    obtain ⟨ha1, ha2⟩ := hall a (List.mem_cons_self a t)
    have hfc : (fillContent last a.content).getD cIdx none = some v := by
      rw [fillContent_getD_none last a.content cIdx ha2 (by omega) (by omega)]
      exact hlast
    have hfcl : (fillContent last a.content).length = 7 := by
      rw [fillContent_length, hlen, ha1]
      exact Nat.min_self 7
    simp only [ffillRows] at hr
    rcases List.mem_cons.mp hr with rfl | hm
    · exact hfc
    · exact ih (fillContent last a.content) hfcl hc hfc
        (fun x hx => hall x (List.mem_cons_of_mem a hx)) r hm

/-- Forward fill never produces an all-null row from a not-all-null
row. -/
lemma ffillRows_no_allNull :
    ∀ (rows : List XRow) (last : List (Option String)),
    last.length = 7 → (∀ r ∈ rows, r.content.length = 7) →
    (∀ r ∈ rows, rowAllNull r = false) →
    ∀ r ∈ ffillRows last rows, rowAllNull r = false := by
  intro rows
  induction rows with
  | nil =>
    intro last _ _ _ r hr
    cases hr
  | cons a t ih =>
    intro last hlen hw hnn r hr
    simp only [ffillRows] at hr
    rcases List.mem_cons.mp hr with rfl | hm
    · have hna := hnn a (List.mem_cons_self a t)
      have hwa := hw a (List.mem_cons_self a t)
      unfold rowAllNull at hna ⊢
      cases hsl : a.sl_no.isNone with
      | false => simp [hsl]
      | true =>
        rw [hsl] at hna
        simp only [Bool.true_and] at hna ⊢
        rw [List.all_eq_false] at hna
        obtain ⟨x, hx, hxf⟩ := hna
        cases x with
        | none => simp at hxf
        | some val =>
          obtain ⟨i, hi, hgx⟩ := List.mem_iff_getElem.mp hx
          have hgd : a.content.getD i none = some val := by
            rw [List.getD_eq_getElem a.content none hi, hgx]
          have hfg : (fillContent last a.content).getD i none = some val :=
            fillContent_getD_some last a.content i val hgd (by omega)
          have hil : i < (fillContent last a.content).length := by
            rw [fillContent_length, hlen, hwa]
            omega
          rw [List.all_eq_false]
          refine ⟨some val, ?_, by simp⟩
          have := List.getElem_mem hil
          rwa [← List.getD_eq_getElem (fillContent last a.content) none hil, hfg]
            at this
    · exact ih (fillContent last a.content)
        (by rw [fillContent_length, hlen, hw a (List.mem_cons_self a t)]
            exact Nat.min_self 7)
        (fun x hx => hw x (List.mem_cons_of_mem a hx))
        (fun x hx => hnn x (List.mem_cons_of_mem a hx)) r hm

/-- Claim C3: in an Acts sheet (seven content columns wide) where a
merged block for a column spans the rows `ri :: mid` — only `ri`
carries a value, the rows of `mid` are blank there — after parsing,
every surviving row of the block carries `ri`'s value in that column
(the block occupies the output segment aligned after the surviving
prefix rows), and the parsed output contains no entirely-null row: they
are dropped. -/
theorem c3_theorem (df pre mid post : List XRow) (ri : XRow) (cIdx : Nat)
    (v : String)
    (hw : ∀ r ∈ df, r.content.length = 7)
    (hdf : df = pre ++ (ri :: (mid ++ post)))
    (hc : cIdx < 7)
    (hri : ri.content.getD cIdx none = some v)
    (hmid : ∀ r ∈ mid, r.content.getD cIdx none = none) :
    (∀ r ∈ ((parse_excel_file df).drop (dropAllNull pre).length).take
        (1 + (dropAllNull mid).length),
      r.content.getD cIdx none = some v) ∧
    ((parse_excel_file df).drop (dropAllNull pre).length).take
        (1 + (dropAllNull mid).length) ≠ [] ∧
    (∀ r ∈ parse_excel_file df, rowAllNull r = false) := by
  subst hdf
  have hmemri : ri ∈ pre ++ (ri :: (mid ++ post)) :=
    List.mem_append.mpr (Or.inr (List.mem_cons_self ri (mid ++ post)))
  have hmemmid : ∀ r ∈ mid, r ∈ pre ++ (ri :: (mid ++ post)) := fun r hr =>
    List.mem_append.mpr (Or.inr (List.mem_cons_of_mem ri
      (List.mem_append.mpr (Or.inl hr))))
  have hriw : ri.content.length = 7 := hw ri hmemri
  have hrinn : rowAllNull ri = false := by
    unfold rowAllNull
    have hlt : cIdx < ri.content.length := by omega
    have hmem : some v ∈ ri.content := by
      have hg := List.getElem_mem hlt
      rwa [← List.getD_eq_getElem ri.content none hlt, hri] at hg
    have hall : ri.content.all (fun x => x.isNone) = false := by
      rw [List.all_eq_false]
      exact ⟨some v, hmem, by simp⟩
    simp [hall]
  have hconj3 : ∀ r ∈ parse_excel_file (pre ++ (ri :: (mid ++ post))),
      rowAllNull r = false := by
    intro r hr
    unfold parse_excel_file at hr
    refine ffillRows_no_allNull (dropAllNull (pre ++ (ri :: (mid ++ post))))
      (List.replicate 7 none) (by simp)
      (fun x hx => hw x (List.mem_filter.mp hx).1)
      (fun x hx => ?_) r hr
    have h2 := (List.mem_filter.mp hx).2
    simpa using h2
  have hsplit : dropAllNull (pre ++ (ri :: (mid ++ post))) =
      dropAllNull pre ++ ri ::
        (dropAllNull mid ++ dropAllNull post) := by
    unfold dropAllNull
    rw [List.filter_append, List.filter_cons]
    simp [hrinn, List.filter_append]
  have hwA : ∀ r ∈ dropAllNull pre, r.content.length = 7 := fun r hr =>
    hw r (List.mem_append.mpr (Or.inl (List.mem_filter.mp hr).1))
  have hL1len : (lastAfter (List.replicate 7 none) (dropAllNull pre)).length = 7 :=
    lastAfter_length (dropAllNull pre) (List.replicate 7 none) (by simp) hwA
  have hClen : (fillContent (lastAfter (List.replicate 7 none) (dropAllNull pre))
      ri.content).length = 7 := by
    rw [fillContent_length, hL1len, hriw]
    exact Nat.min_self 7
  have hCget : (fillContent (lastAfter (List.replicate 7 none) (dropAllNull pre))
      ri.content).getD cIdx none = some v :=
    fillContent_getD_some _ ri.content cIdx v hri (by omega)
  have hsecond : ffillRows (lastAfter (List.replicate 7 none) (dropAllNull pre))
      (ri :: (dropAllNull mid ++ dropAllNull post)) =
      ((⟨ri.sl_no, fillContent (lastAfter (List.replicate 7 none) (dropAllNull pre))
          ri.content⟩ : XRow) ::
        ffillRows (fillContent (lastAfter (List.replicate 7 none) (dropAllNull pre))
          ri.content) (dropAllNull mid)) ++
        ffillRows (lastAfter (fillContent
          (lastAfter (List.replicate 7 none) (dropAllNull pre)) ri.content)
          (dropAllNull mid)) (dropAllNull post) := by
    show (⟨ri.sl_no, _⟩ : XRow) :: ffillRows _ (dropAllNull mid ++ dropAllNull post) = _
    rw [ffillRows_append]
    rfl
  have hseg : ((parse_excel_file (pre ++ (ri :: (mid ++ post)))).drop
      (dropAllNull pre).length).take (1 + (dropAllNull mid).length) =
      (⟨ri.sl_no, fillContent (lastAfter (List.replicate 7 none) (dropAllNull pre))
          ri.content⟩ : XRow) ::
        ffillRows (fillContent (lastAfter (List.replicate 7 none) (dropAllNull pre))
          ri.content) (dropAllNull mid) := by
    unfold parse_excel_file
    rw [hsplit, ffillRows_append (dropAllNull pre)
      (ri :: (dropAllNull mid ++ dropAllNull post)) (List.replicate 7 none), hsecond]
    have hXlen : (ffillRows (List.replicate 7 none) (dropAllNull pre)).length =
        (dropAllNull pre).length := ffillRows_length _ _
    rw [← hXlen, ← List.append_assoc, List.drop_append_of_le_length (by simp)]
    rw [List.drop_left]
    have hYlen : ((⟨ri.sl_no, fillContent
        (lastAfter (List.replicate 7 none) (dropAllNull pre)) ri.content⟩ : XRow) ::
        ffillRows (fillContent (lastAfter (List.replicate 7 none) (dropAllNull pre))
          ri.content) (dropAllNull mid)).length = 1 + (dropAllNull mid).length := by
      simp only [List.length_cons, ffillRows_length]
      omega
    rw [← hYlen, List.take_left]
  refine ⟨?_, ?_, hconj3⟩
  · intro r hr
    rw [hseg] at hr
    rcases List.mem_cons.mp hr with rfl | hm
    · exact hCget
    · exact ffillRows_all_some cIdx v (dropAllNull mid)
        (fillContent (lastAfter (List.replicate 7 none) (dropAllNull pre)) ri.content)
        hClen hc hCget
        (fun x hx => ⟨hw x (hmemmid x (List.mem_filter.mp hx).1),
          hmid x (List.mem_filter.mp hx).1⟩) r hm
  · rw [hseg]
    simp

def wRi : XRow :=
  ⟨some "1", [some "Maharashtra", some "IT", none, none, none, none, none]⟩

def wMid1 : XRow :=
  ⟨some "2", [none, some "Retail", none, none, none, none, none]⟩

def wMid2 : XRow :=
  ⟨some "3", [none, some "Food", none, none, none, none, none]⟩

/-- A three-row sheet whose `state` column is a merged block: only the
first row carries "Maharashtra". -/
def wDf : List XRow := [wRi, wMid1, wMid2]

/-- Witness for C3 at a concrete sheet: all three surviving rows of the
merged block carry "Maharashtra" in the state column after parsing, and
no all-null row survives. -/
theorem c3_witness :
    (∀ r ∈ ((parse_excel_file wDf).drop (dropAllNull ([] : List XRow)).length).take
        (1 + (dropAllNull [wMid1, wMid2]).length),
      r.content.getD 0 none = some "Maharashtra") ∧
    ((parse_excel_file wDf).drop (dropAllNull ([] : List XRow)).length).take
        (1 + (dropAllNull [wMid1, wMid2]).length) ≠ [] ∧
    (∀ r ∈ parse_excel_file wDf, rowAllNull r = false) :=
  c3_theorem wDf [] [wMid1, wMid2] [] wRi 0 "Maharashtra"
    (by decide) rfl (by decide) (by decide) (by decide)

end RicAgent
